import Mathlib

/-!
Verification development for the jobwork-inventory synchronization and
reconciliation engine.

This file gives a shallow embedding of the sync engine
(`src/services/sheets.ts`, current version), the reconciliation report
computation (`src/pages/Report.tsx`), the single-flight sync guard
(`src/App.tsx`) and the entry-creation weight logic
(`src/pages/Inward.tsx` / `src/pages/Outward.tsx`), and proves or refutes
the frozen specification claims about them.

Modelling conventions, chosen to mirror the TypeScript source faithfully:
* JavaScript numbers are modelled as rationals (`ℚ`); all numeric values in
  the program are produced by `parseFloat` on decimal text and combined by
  `+`, `-`, `max`, so rational arithmetic is exact for them.
* Optional string fields (`photo?`, `photoUrl?`, `remarks?`, ...) are
  modelled as `String` with `""` standing for `undefined`; every use site
  in the source treats the two identically (`||`-defaulting, truthiness
  tests such as `!pUrl` and `e.photo &&`).
* The optional numeric `comboQty?` is modelled as `ℚ` with `0` standing
  for `undefined`; all use sites coalesce through `|| 0`, `?? 0` or the
  `e.comboQty || ''` / `parseFloat(r[5] || 0)` write/read round trip,
  under which `0` and `undefined` are indistinguishable.
* Client-generated identifiers (`uuidv4()`) are modelled as natural
  numbers handed out from an explicit counter `base`; real uuids are never
  falsy, so the `localMatch?.id || uuidv4()` fallback only fires on a
  missing match, which the `Option` model captures.
* Foreign-key string fields holding either a uuid or `''` are modelled as
  `Option Nat` (`none` for `''`); in JS, `''` compares unequal to every
  real uuid under `===`, exactly as `none` does to `some _`.
* Remote sheet rows are modelled as typed records with the fixed column
  order of the source (the writer and the parser in the source use
  position-indexed arrays over the same layout).
* Dates are ISO-like strings; `Date` parsing/formatting is modelled for
  the two formats the application itself produces (ISO timestamps and the
  `DD-Mon-YYYY` output of `formatDisplayDate`), assuming a UTC locale.
* Network effects are explicit parameters: the photo-upload service is a
  function `String → String → Option String` (`none` models the `null`
  that `uploadImage` returns on any failure — it never throws), and
  append failures are modelled by a per-target failure flag; a thrown
  append error carries the store as written so far, mirroring the
  non-rollback-able discrete writes of the sheets API.
-/

namespace JW

/-- Status of an outward entry, the `'OPEN' | 'COMPLETED'` union of the source. -/
inductive Status where
  | OPEN
  | COMPLETED
deriving DecidableEq, Repr

/-- Vendor master record (`types.ts`). -/
structure Vendor where
  id : Nat
  name : String
  code : String
  synced : Bool
deriving DecidableEq, Repr

/-- Item master record (`types.ts`). -/
structure Item where
  id : Nat
  sku : String
  description : String
  synced : Bool
deriving DecidableEq, Repr

/-- Work-type master record (`types.ts`). -/
structure WorkType where
  id : Nat
  name : String
  synced : Bool
deriving DecidableEq, Repr

/-- User master record (`types.ts`). -/
structure User where
  id : Nat
  name : String
  synced : Bool
deriving DecidableEq, Repr

/-- Outward entry (`types.ts`): a record of material sent to a vendor. -/
structure OutwardEntry where
  id : Nat
  date : String
  vendorId : Option Nat
  challanNo : String
  skuId : Option Nat
  qty : ℚ
  comboQty : ℚ
  totalWeight : ℚ
  pendalWeight : ℚ
  materialWeight : ℚ
  workId : Option Nat
  photo : String
  photoUrl : String
  remarks : String
  enteredBy : String
  checkedBy : String
  status : Status
  synced : Bool
deriving DecidableEq, Repr

/-- Inward entry (`types.ts`): a record of material received back against an
outward entry, referencing it through `outwardChallanId`. -/
structure InwardEntry where
  id : Nat
  date : String
  outwardChallanId : Option Nat
  vendorId : Option Nat
  skuId : Option Nat
  qty : ℚ
  comboQty : ℚ
  totalWeight : ℚ
  pendalWeight : ℚ
  materialWeight : ℚ
  remarks : String
  enteredBy : String
  checkedBy : String
  photo : String
  photoUrl : String
  synced : Bool
deriving DecidableEq, Repr

/-- The application state (`types.ts` `AppState`). -/
structure AppState where
  vendors : List Vendor
  items : List Item
  workTypes : List WorkType
  users : List User
  outwardEntries : List OutwardEntry
  inwardEntries : List InwardEntry
deriving DecidableEq, Repr

/-- A row of the remote Outward sheet in the fixed column order
`date, vendorName, challanNo, sku, qty, comboQty, totalWeight, pendalWeight,
materialWeight, checkedBy, enteredBy, photoUrl, workName, remarks, status,
syncTimestamp` (columns A..P). -/
structure OutwardRow where
  date : String
  vendorName : String
  challanNo : String
  sku : String
  qty : ℚ
  comboQty : ℚ
  totalWeight : ℚ
  pendalWeight : ℚ
  materialWeight : ℚ
  checkedBy : String
  enteredBy : String
  photoUrl : String
  workName : String
  remarks : String
  status : Status
  syncTimestamp : String
deriving DecidableEq, Repr

/-- A row of the remote Inward sheet in the fixed column order
`date, vendorName, outwardChallanNo, sku, qty, comboQty, totalWeight,
pendalWeight, materialWeight, checkedBy, enteredBy, photoUrl, remarks,
syncTimestamp` (columns A..N). -/
structure InwardRow where
  date : String
  vendorName : String
  outwardChallanNo : String
  sku : String
  qty : ℚ
  comboQty : ℚ
  totalWeight : ℚ
  pendalWeight : ℚ
  materialWeight : ℚ
  checkedBy : String
  enteredBy : String
  photoUrl : String
  remarks : String
  syncTimestamp : String
deriving DecidableEq, Repr

/-- The remote tabular store: one list of data rows per named range
(header rows are dropped by `.slice(1)` in the source and are not
modelled).  The Reconciliation range is part of the remote spreadsheet
(`SHEETS_CONFIG.reconciliationSheetName`); its cells are kept untyped
because no code in the repository ever writes it. -/
structure RemoteStore where
  vendorRows : List (String × String)
  itemRows : List (String × String)
  workRows : List String
  userRows : List String
  outwardRows : List OutwardRow
  inwardRows : List InwardRow
  reconciliationRows : List (List String)
deriving DecidableEq, Repr

/-- JavaScript `a || b` on strings: `""` is falsy. -/
def jsOr (a b : String) : String := if a = "" then b else a

/-- Model of `String.prototype.trim`, implemented over the character list
so that it is fully computable inside the logic. -/
def jsTrim (s : String) : String :=
  ⟨((s.data.dropWhile Char.isWhitespace).reverse.dropWhile Char.isWhitespace).reverse⟩

/-- Model of `String.prototype.toLowerCase` for the ASCII text this
application handles, implemented over the character list. -/
def jsToLower (s : String) : String :=
  ⟨s.data.map Char.toLower⟩

/-- Splitting a character list at every occurrence of a separator; always
returns at least one (possibly empty) segment, like JavaScript `split`. -/
def splitChar (c : Char) : List Char → List (List Char)
  | [] => [[]]
  | x :: xs =>
    match splitChar c xs with
    | [] => [[x]]
    | y :: ys => if x = c then [] :: y :: ys else (x :: y) :: ys

/-- Model of `String.prototype.split` with a single-character separator. -/
def jsSplitOn (c : Char) (s : String) : List String :=
  (splitChar c s.data).map String.mk

/-- Model of `String.prototype.includes` with a single-character needle. -/
def jsContains (s : String) (c : Char) : Bool :=
  s.data.contains c

/-- Digit-string parsing (the successful case of `parseInt`/`Number` on
the all-digit fields this model feeds it). -/
def jsToNat? (s : String) : Option Nat :=
  if s.data ≠ [] ∧ s.data.all Char.isDigit then
    some (s.data.foldl (fun n c => n * 10 + (c.toNat - 48)) 0)
  else none

/-- Month names used by `formatDisplayDate` (`types.ts`). -/
def monthNames : List String :=
  ["Jan", "Feb", "Mar", "Apr", "May", "Jun", "Jul", "Aug", "Sep", "Oct", "Nov", "Dec"]

/-- Month name for a 1-based month number string such as `"03"`. -/
def monthName (m : String) : String :=
  monthNames.getD ((jsToNat? m).getD 0 - 1) "---"

/-- The 1-based month number of a month name, if valid. -/
def monthNum (m : String) : Option Nat :=
  (monthNames.findIdx? (· == m)).map (· + 1)

/-- Zero-padded two-digit rendering of a number (`padStart(2, '0')`). -/
def pad2 (n : Nat) : String :=
  if n < 10 then "0" ++ toString n else toString n

/-- Model of `formatDisplayDate` (`types.ts`): renders a date string as
`DD-Mon-YYYY`, or `"---"` when empty/invalid.  The `new
Date(...)getDate/getMonth/getFullYear` pipeline of the source is modelled
by reading the calendar day out of the ISO text, assuming a UTC locale. -/
def formatDisplayDate (dateStr : String) : String :=
  if dateStr = "" then "---"
  else
    match jsSplitOn '-' ((jsSplitOn 'T' dateStr).headD "") with
    | [y, m, d] => d ++ "-" ++ monthName m ++ "-" ++ y
    | _ => "---"

/-- Model of JavaScript `new Date(value).toISOString()` for the date
formats this application round-trips: ISO timestamps pass through, plain
`YYYY-MM-DD` and `DD-Mon-YYYY` dates normalise to UTC midnight; anything
else is invalid (`none`).  Assumes a UTC locale. -/
def isoOf (value : String) : Option String :=
  if value = "" then none
  else if jsContains value 'T' then some value
  else
    match jsSplitOn '-' value with
    | [a, b, c] =>
      match monthNum b with
      | some m => some (c ++ "-" ++ pad2 m ++ "-" ++ a ++ "T00:00:00.000Z")
      | none =>
        if (jsToNat? a).isSome && (jsToNat? b).isSome && (jsToNat? c).isSome then
          some (a ++ "-" ++ b ++ "-" ++ c ++ "T00:00:00.000Z")
        else none
    | _ => none

/-- Model of `parseDate` (`sheets.ts` lines 182-188): empty or unparseable
values fall back to the current instant `now`; otherwise the value is
normalised to an ISO timestamp. -/
def parseDate (now value : String) : String :=
  (isoOf value).getD now

/-- Model of `getInwardSignature` (`sheets.ts` lines 190-193).  The source
builds the string
`` `${dateStr.split('T')[0]}|${vendor.trim().toLowerCase()}|${outChallan.trim().toLowerCase()}|${qty}` ``;
the four `|`-separated components are modelled as a tuple, whose equality
agrees with equality of the source's strings whenever the text fields
contain no separator (which holds for every input considered here). -/
def getInwardSignature (dateStr vendor outChallan : String) (qty : ℚ) :
    String × String × String × ℚ :=
  ((jsSplitOn 'T' dateStr).headD "", jsToLower (jsTrim vendor), jsToLower (jsTrim outChallan), qty)

/-- The six remote append targets of one sync cycle, in the order the
source issues them. -/
inductive AppendTarget where
  | vendor
  | item
  | work
  | user
  | outward
  | inward
deriving DecidableEq, Repr

/-- The remote world a sync cycle interacts with: the current store
content, whether `gapi.client.getToken()` yields an access token,
the photo-upload service (`uploadImage` returns a url or `null`, never
throwing), and which append calls throw a (transient) error. -/
structure RemoteEnv where
  store : RemoteStore
  hasToken : Bool
  uploadPhoto : String → String → Option String
  failAppend : AppendTarget → Bool

/-- The observable outcome of `syncDataToSheets`: the remote store after
whatever writes happened, the state passed to `onUpdateState` (if it was
called at all), and the structured `{success, message}` result value. -/
structure SyncOutcome where
  finalStore : RemoteStore
  updated : Option AppState
  success : Bool
  message : String

/-- Parse of the remote vendor range (`sheets.ts` line 216): each row gets
a fresh client identifier (`uuidv4()`, modelled by a counter) and is
marked synced. -/
def parseVendors (base : Nat) : List (String × String) → List Vendor
  | [] => []
  | r :: rs => ⟨base, r.1, r.2, true⟩ :: parseVendors (base + 1) rs

/-- Parse of the remote item range (`sheets.ts` line 217). -/
def parseItems (base : Nat) : List (String × String) → List Item
  | [] => []
  | r :: rs => ⟨base, r.1, r.2, true⟩ :: parseItems (base + 1) rs

/-- Parse of the remote work-type range (`sheets.ts` line 218). -/
def parseWorks (base : Nat) : List String → List WorkType
  | [] => []
  | r :: rs => ⟨base, r, true⟩ :: parseWorks (base + 1) rs

/-- Parse of the remote user range (`sheets.ts` line 219). -/
def parseUsers (base : Nat) : List String → List User
  | [] => []
  | r :: rs => ⟨base, r, true⟩ :: parseUsers (base + 1) rs

/-- The duplicate-detection index over remote outward rows (`sheets.ts`
line 224): the set of trimmed challan numbers. -/
def seenOutwardChallansOf (store : RemoteStore) : List String :=
  store.outwardRows.map (fun r => jsTrim r.challanNo)

/-- The duplicate-detection index over remote inward rows (`sheets.ts`
lines 225-227): the signature of each already-persisted row, computed from
the row's own cells. -/
def seenInwardSignaturesOf (store : RemoteStore) : List (String × String × String × ℚ) :=
  store.inwardRows.map (fun r => getInwardSignature r.date r.vendorName r.outwardChallanNo r.qty)

/-- Unsynced vendor candidates not already present remotely by code
(`sheets.ts` line 229). -/
def unsyncedVendorsOf (existingVendors : List Vendor) (state : AppState) : List Vendor :=
  state.vendors.filter (fun e => !e.synced && !(existingVendors.any (fun ev => ev.code == e.code)))

/-- Unsynced item candidates not already present remotely by SKU
(`sheets.ts` line 230). -/
def unsyncedItemsOf (existingItems : List Item) (state : AppState) : List Item :=
  state.items.filter (fun e => !e.synced && !(existingItems.any (fun ei => ei.sku == e.sku)))

/-- Unsynced work-type candidates not already present remotely by name
(`sheets.ts` line 231). -/
def unsyncedWorksOf (existingWorks : List WorkType) (state : AppState) : List WorkType :=
  state.workTypes.filter (fun e => !e.synced && !(existingWorks.any (fun ew => ew.name == e.name)))

/-- Unsynced user candidates not already present remotely by name
(`sheets.ts` line 232). -/
def unsyncedUsersOf (existingUsers : List User) (state : AppState) : List User :=
  state.users.filter (fun e => !e.synced && !(existingUsers.any (fun eu => eu.name == e.name)))

/-- The to-upload partition of local outward candidates (`sheets.ts` line
234): unsynced and challan number (trimmed) not seen remotely. -/
def validOutwardToUploadOf (store : RemoteStore) (state : AppState) : List OutwardEntry :=
  state.outwardEntries.filter
    (fun e => !e.synced && !((seenOutwardChallansOf store).contains (jsTrim e.challanNo)))

/-- The signature of a local inward candidate (`sheets.ts` lines 236-238):
its vendor name and referenced outward challan are resolved from local
state (`|| 'Unknown'` / `|| '---'` defaults), its date is the local ISO
date string. -/
def inwardCandidateSignature (state : AppState) (e : InwardEntry) :
    String × String × String × ℚ :=
  let vendorName := jsOr
    (((state.vendors.find? (fun v => (some v.id : Option Nat) == e.vendorId)).map (·.name)).getD "")
    "Unknown"
  let outChallan := jsOr
    (((state.outwardEntries.find? (fun o => (some o.id : Option Nat) == e.outwardChallanId)).map
      (·.challanNo)).getD "")
    "---"
  getInwardSignature e.date vendorName outChallan e.qty

/-- The to-upload partition of local inward candidates (`sheets.ts` lines
235-240): unsynced and signature not seen remotely. -/
def validInwardToUploadOf (store : RemoteStore) (state : AppState) : List InwardEntry :=
  (state.inwardEntries.filter (fun e => !e.synced)).filter
    (fun e => !((seenInwardSignaturesOf store).contains (inwardCandidateSignature state e)))

/-- The outward sheet row written for a to-upload candidate (`sheets.ts`
lines 250-266).  When the candidate has no url but carries a photo, the
upload service is invoked; its `null` failure result degrades to `''`
via `|| ''`. -/
def outwardRowOf (upload : String → String → Option String) (state : AppState)
    (timestamp : String) (e : OutwardEntry) : OutwardRow :=
  let pUrl := if e.photoUrl = "" ∧ e.photo ≠ "" then
      (upload e.photo ("OUT_" ++ e.challanNo ++ ".jpg")).getD ""
    else e.photoUrl
  { date := formatDisplayDate e.date
    vendorName := jsOr
      (((state.vendors.find? (fun v => (some v.id : Option Nat) == e.vendorId)).map (·.name)).getD "")
      "Unknown"
    challanNo := e.challanNo
    sku := jsOr
      (((state.items.find? (fun i => (some i.id : Option Nat) == e.skuId)).map (·.sku)).getD "")
      "Unknown"
    qty := e.qty
    comboQty := e.comboQty
    totalWeight := e.totalWeight
    pendalWeight := e.pendalWeight
    materialWeight := e.materialWeight
    checkedBy := e.checkedBy
    enteredBy := e.enteredBy
    photoUrl := pUrl
    workName := ((state.workTypes.find? (fun w => (some w.id : Option Nat) == e.workId)).map
      (·.name)).getD ""
    remarks := e.remarks
    status := e.status
    syncTimestamp := timestamp }

/-- The inward sheet row written for a to-upload candidate (`sheets.ts`
lines 270-284).  The referenced outward challan is written as `'---'` when
unresolved, while the upload file name falls back to `'UNK'`. -/
def inwardRowOf (upload : String → String → Option String) (state : AppState)
    (timestamp : String) (e : InwardEntry) : InwardRow :=
  let out := state.outwardEntries.find? (fun o => (some o.id : Option Nat) == e.outwardChallanId)
  let pUrl := if e.photoUrl = "" ∧ e.photo ≠ "" then
      (upload e.photo
        ("IN_" ++ jsOr ((out.map (·.challanNo)).getD "") "UNK" ++ ".jpg")).getD ""
    else e.photoUrl
  { date := formatDisplayDate e.date
    vendorName := jsOr
      (((state.vendors.find? (fun v => (some v.id : Option Nat) == e.vendorId)).map (·.name)).getD "")
      "Unknown"
    outwardChallanNo := (out.map (·.challanNo)).getD "---"
    sku := jsOr
      (((state.items.find? (fun i => (some i.id : Option Nat) == e.skuId)).map (·.sku)).getD "")
      "Unknown"
    qty := e.qty
    comboQty := e.comboQty
    totalWeight := e.totalWeight
    pendalWeight := e.pendalWeight
    materialWeight := e.materialWeight
    checkedBy := e.checkedBy
    enteredBy := e.enteredBy
    photoUrl := pUrl
    remarks := e.remarks
    syncTimestamp := timestamp }

/-- All outward rows appended in this cycle: one per to-upload candidate. -/
def newOutwardRowsOf (env : RemoteEnv) (state : AppState) (timestamp : String) :
    List OutwardRow :=
  (validOutwardToUploadOf env.store state).map (outwardRowOf env.uploadPhoto state timestamp)

/-- All inward rows appended in this cycle: one per to-upload candidate. -/
def newInwardRowsOf (env : RemoteEnv) (state : AppState) (timestamp : String) :
    List InwardRow :=
  (validInwardToUploadOf env.store state).map (inwardRowOf env.uploadPhoto state timestamp)

/-- One conditional append call: skipped when the batch is empty
(`if (rows.length) await ...append(...)`), throwing on a transient remote
failure, in which case the store keeps only the writes made so far. -/
def stepAppend (fail : Bool) (n : Nat) (commit keep : RemoteStore) :
    Except (RemoteStore × String) RemoteStore :=
  if n = 0 then .ok keep
  else if fail then .error (keep, "Sync failed")
  else .ok commit

/-- The write phase of one sync cycle (`sheets.ts` lines 242-285): the
four master appends, then the outward append, then the inward append, each
discrete and non-rollback-able.  An error aborts the remainder and carries
the store as written so far. -/
def appendPhase (env : RemoteEnv) (vRows iRows : List (String × String))
    (wRows uRows : List String) (oRows : List OutwardRow) (nRows : List InwardRow) :
    Except (RemoteStore × String) RemoteStore := do
  let s0 := env.store
  let s1 ← stepAppend (env.failAppend .vendor) vRows.length
    { s0 with vendorRows := s0.vendorRows ++ vRows } s0
  let s2 ← stepAppend (env.failAppend .item) iRows.length
    { s1 with itemRows := s1.itemRows ++ iRows } s1
  let s3 ← stepAppend (env.failAppend .work) wRows.length
    { s2 with workRows := s2.workRows ++ wRows } s2
  let s4 ← stepAppend (env.failAppend .user) uRows.length
    { s3 with userRows := s3.userRows ++ uRows } s3
  let s5 ← stepAppend (env.failAppend .outward) oRows.length
    { s4 with outwardRows := s4.outwardRows ++ oRows } s4
  stepAppend (env.failAppend .inward) nRows.length
    { s5 with inwardRows := s5.inwardRows ++ nRows } s5

/-- The merge of one outward row back into a typed entry (`sheets.ts`
lines 292-307): identity is reused from the local entry with the same
challan number when one exists, the status is the local COMPLETED
override of the sheet status, and all numeric columns — including
`materialWeight` (column I, `r[8]`) — are taken from the row as-is. -/
def mergeOutwardEntry (state : AppState) (allVendors : List Vendor) (allItems : List Item)
    (allWorks : List WorkType) (ts : String) (fid : Nat) (r : OutwardRow) : OutwardEntry :=
  let localMatch := state.outwardEntries.find? (fun o => o.challanNo == r.challanNo)
  let effectiveStatus :=
    if localMatch.map (·.status) = some Status.COMPLETED then Status.COMPLETED else r.status
  { id := (localMatch.map (·.id)).getD fid
    date := parseDate ts r.date
    vendorId := (allVendors.find? (fun v => v.name == r.vendorName)).map (·.id)
    challanNo := r.challanNo
    skuId := (allItems.find? (fun i => i.sku == r.sku)).map (·.id)
    qty := r.qty
    comboQty := r.comboQty
    totalWeight := r.totalWeight
    pendalWeight := r.pendalWeight
    materialWeight := r.materialWeight
    workId := (allWorks.find? (fun w => w.name == r.workName)).map (·.id)
    photo := ""
    photoUrl := r.photoUrl
    remarks := r.remarks
    enteredBy := r.enteredBy
    checkedBy := r.checkedBy
    status := effectiveStatus
    synced := true }

/-- Merge of the full outward row list, drawing one fresh identifier per
row for entries with no local match. -/
def mergeOutwardRows (state : AppState) (allVendors : List Vendor) (allItems : List Item)
    (allWorks : List WorkType) (ts : String) : Nat → List OutwardRow → List OutwardEntry
  | _, [] => []
  | fid, r :: rs =>
    mergeOutwardEntry state allVendors allItems allWorks ts fid r ::
      mergeOutwardRows state allVendors allItems allWorks ts (fid + 1) rs

/-- The merge of one inward row back into a typed entry (`sheets.ts` lines
309-325): identity is reused from a local inward entry matching on
(referenced outward challan, qty), and the outward reference is re-linked
by challan number into the just-merged outward list. -/
def mergeInwardEntry (state : AppState) (allVendors : List Vendor) (allItems : List Item)
    (finalOutward : List OutwardEntry) (ts : String) (fid : Nat) (r : InwardRow) : InwardEntry :=
  let localMatch := state.inwardEntries.find? (fun i =>
    (((state.outwardEntries.find? (fun o => (some o.id : Option Nat) == i.outwardChallanId)).map
       (·.challanNo)) == some r.outwardChallanNo) && i.qty == r.qty)
  { id := (localMatch.map (·.id)).getD fid
    date := parseDate ts r.date
    vendorId := (allVendors.find? (fun v => v.name == r.vendorName)).map (·.id)
    outwardChallanId := (finalOutward.find? (fun o => o.challanNo == r.outwardChallanNo)).map (·.id)
    skuId := (allItems.find? (fun i => i.sku == r.sku)).map (·.id)
    qty := r.qty
    comboQty := r.comboQty
    totalWeight := r.totalWeight
    pendalWeight := r.pendalWeight
    materialWeight := r.materialWeight
    remarks := r.remarks
    enteredBy := r.enteredBy
    checkedBy := r.checkedBy
    photo := ""
    photoUrl := r.photoUrl
    synced := true }

/-- Merge of the full inward row list, drawing one fresh identifier per
row for entries with no local match. -/
def mergeInwardRows (state : AppState) (allVendors : List Vendor) (allItems : List Item)
    (finalOutward : List OutwardEntry) (ts : String) : Nat → List InwardRow → List InwardEntry
  | _, [] => []
  | fid, r :: rs =>
    mergeInwardEntry state allVendors allItems finalOutward ts fid r ::
      mergeInwardRows state allVendors allItems finalOutward ts (fid + 1) rs

/-- Total number of master rows parsed, used to offset the fresh-identifier
counter between the parse phase and the merge phase. -/
def mastersCount (store : RemoteStore) : Nat :=
  store.vendorRows.length + store.itemRows.length + store.workRows.length +
    store.userRows.length

/-- The `existingVendors` parse of one cycle. -/
def existingVendorsOf (base : Nat) (store : RemoteStore) : List Vendor :=
  parseVendors base store.vendorRows

/-- The `existingItems` parse of one cycle. -/
def existingItemsOf (base : Nat) (store : RemoteStore) : List Item :=
  parseItems (base + store.vendorRows.length) store.itemRows

/-- The `existingWorks` parse of one cycle. -/
def existingWorksOf (base : Nat) (store : RemoteStore) : List WorkType :=
  parseWorks (base + store.vendorRows.length + store.itemRows.length) store.workRows

/-- The `existingUsers` parse of one cycle. -/
def existingUsersOf (base : Nat) (store : RemoteStore) : List User :=
  parseUsers (base + store.vendorRows.length + store.itemRows.length + store.workRows.length)
    store.userRows

/-- The vendor rows appended in one cycle (`[v.name, v.code]`). -/
def vendorAppendRows (base : Nat) (store : RemoteStore) (state : AppState) :
    List (String × String) :=
  (unsyncedVendorsOf (existingVendorsOf base store) state).map (fun v => (v.name, v.code))

/-- The item rows appended in one cycle (`[i.sku, i.description]`). -/
def itemAppendRows (base : Nat) (store : RemoteStore) (state : AppState) :
    List (String × String) :=
  (unsyncedItemsOf (existingItemsOf base store) state).map (fun i => (i.sku, i.description))

/-- The work-type rows appended in one cycle (`[w.name]`). -/
def workAppendRows (base : Nat) (store : RemoteStore) (state : AppState) : List String :=
  (unsyncedWorksOf (existingWorksOf base store) state).map (·.name)

/-- The user rows appended in one cycle (`[u.name]`). -/
def userAppendRows (base : Nat) (store : RemoteStore) (state : AppState) : List String :=
  (unsyncedUsersOf (existingUsersOf base store) state).map (·.name)

/-- `allVendors` of one cycle: parsed remote vendors plus this run's
unsynced vendors, marked synced (`sheets.ts` line 287). -/
def allVendorsOf (base : Nat) (store : RemoteStore) (state : AppState) : List Vendor :=
  existingVendorsOf base store ++
    (unsyncedVendorsOf (existingVendorsOf base store) state).map (fun v => { v with synced := true })

/-- `allItems` of one cycle (`sheets.ts` line 288). -/
def allItemsOf (base : Nat) (store : RemoteStore) (state : AppState) : List Item :=
  existingItemsOf base store ++
    (unsyncedItemsOf (existingItemsOf base store) state).map (fun i => { i with synced := true })

/-- `allWorks` of one cycle (`sheets.ts` line 289). -/
def allWorksOf (base : Nat) (store : RemoteStore) (state : AppState) : List WorkType :=
  existingWorksOf base store ++
    (unsyncedWorksOf (existingWorksOf base store) state).map (fun w => { w with synced := true })

/-- `allUsers` of one cycle (`sheets.ts` line 290). -/
def allUsersOf (base : Nat) (store : RemoteStore) (state : AppState) : List User :=
  existingUsersOf base store ++
    (unsyncedUsersOf (existingUsersOf base store) state).map (fun u => { u with synced := true })

/-- `finalOutward` of one cycle (`sheets.ts` lines 292-307): the merge of
remote outward rows plus this run's appended rows. -/
def finalOutwardOf (env : RemoteEnv) (state : AppState) (ts : String) (base : Nat) :
    List OutwardEntry :=
  mergeOutwardRows state (allVendorsOf base env.store state) (allItemsOf base env.store state)
    (allWorksOf base env.store state) ts (base + mastersCount env.store)
    (env.store.outwardRows ++ newOutwardRowsOf env state ts)

/-- `finalInward` of one cycle (`sheets.ts` lines 309-325). -/
def finalInwardOf (env : RemoteEnv) (state : AppState) (ts : String) (base : Nat) :
    List InwardEntry :=
  mergeInwardRows state (allVendorsOf base env.store state) (allItemsOf base env.store state)
    (finalOutwardOf env state ts base) ts
    (base + mastersCount env.store +
      (env.store.outwardRows ++ newOutwardRowsOf env state ts).length)
    (env.store.inwardRows ++ newInwardRowsOf env state ts)

/-- The merged canonical state of one successful cycle (`sheets.ts` lines
287-327): parsed remote masters plus this run's unsynced masters (marked
synced), and the remerged outward/inward lists over remote rows plus this
run's appended rows. -/
def mergedStateOf (env : RemoteEnv) (state : AppState) (ts : String) (base : Nat) : AppState :=
  ⟨allVendorsOf base env.store state, allItemsOf base env.store state,
    allWorksOf base env.store state, allUsersOf base env.store state,
    finalOutwardOf env state ts base, finalInwardOf env state ts base⟩

/-- The remote store after a fully successful append phase. -/
def storeAfterSuccess (env : RemoteEnv) (state : AppState) (ts : String) (base : Nat) :
    RemoteStore :=
  { env.store with
    vendorRows := env.store.vendorRows ++ vendorAppendRows base env.store state
    itemRows := env.store.itemRows ++ itemAppendRows base env.store state
    workRows := env.store.workRows ++ workAppendRows base env.store state
    userRows := env.store.userRows ++ userAppendRows base env.store state
    outwardRows := env.store.outwardRows ++ newOutwardRowsOf env state ts
    inwardRows := env.store.inwardRows ++ newInwardRowsOf env state ts }

/-- Model of `syncDataToSheets` (`sheets.ts` lines 197-333).  Without an
access token the cycle aborts before any write.  Otherwise the remote
ranges are batch-read, the unsynced candidates are partitioned against the
duplicate-detection indexes, the append phase runs, and — only if every
write succeeded — the merged state is handed to `onUpdateState` and a
success outcome returned.  Any thrown error is caught at the boundary and
surfaced as a `{success := false}` outcome, with no state update. -/
def syncDataToSheets (env : RemoteEnv) (state : AppState) (timestamp : String) (base : Nat) :
    SyncOutcome :=
  if env.hasToken = false then
    ⟨env.store, none, false, "Authorization required. Click Sync manually."⟩
  else
    match appendPhase env (vendorAppendRows base env.store state)
        (itemAppendRows base env.store state) (workAppendRows base env.store state)
        (userAppendRows base env.store state) (newOutwardRowsOf env state timestamp)
        (newInwardRowsOf env state timestamp) with
    | .error (st, msg) => ⟨st, none, false, msg⟩
    | .ok st => ⟨st, some (mergedStateOf env state timestamp base), true,
        "Sync Complete: " ++ timestamp⟩

/-- One row of the reconciliation report (`Report.tsx` lines 142-176),
restricted to the fields the reconciliation semantics uses; the
display-only resolution fields (vendor name, SKU text, received-date
list) are independent of these. -/
structure ReportRow where
  entry : OutwardEntry
  inQty : ℚ
  inComboQty : ℚ
  shortQty : ℚ
  shortComboQty : ℚ
  pending : ℚ
deriving DecidableEq, Repr

/-- The reconciliation computation for one outward entry (`Report.tsx`
lines 142-158): matched inward entries are those referencing it by
`outwardChallanId`; received quantities are their sums; `pending` and
`shortQty` are `max(0, sent − received)` gated on the closed flag. -/
def reportRowFor (s : AppState) (o : OutwardEntry) : ReportRow :=
  let inwards := s.inwardEntries.filter (fun i => i.outwardChallanId == some o.id)
  let inQty := inwards.foldl (fun sum i => sum + i.qty) 0
  let inComboQty := inwards.foldl (fun sum i => sum + i.comboQty) 0
  let isClosed := o.status = Status.COMPLETED
  let pending := if isClosed then 0 else max 0 (o.qty - inQty)
  let shortQty := if isClosed then max 0 (o.qty - inQty) else 0
  let shortComboQty := if isClosed then max 0 (o.comboQty - inComboQty) else 0
  ⟨o, inQty, inComboQty, shortQty, shortComboQty, pending⟩

/-- The three report statuses the UI distinguishes: the orange
`SHORT CLOSED` badge, the green `COMPLETED` badge, and the pending
(`N Days Pending`) presentation. -/
inductive ReportStatus where
  | shortQtyCompleted
  | complete
  | pending
deriving DecidableEq, Repr

/-- The status the report assigns to a row (`Report.tsx` lines 320-326):
`isCompleted = status === 'COMPLETED' || pending <= 0`; a completed row is
`SHORT CLOSED` exactly when its `shortQty` is positive. -/
def displayStatus (r : ReportRow) : ReportStatus :=
  if r.entry.status = Status.COMPLETED ∨ r.pending ≤ 0 then
    (if r.shortQty > 0 then .shortQtyCompleted else .complete)
  else .pending

/-- Status precedence as the specification words it (§4.4, first match
wins), including the `sent > 0` guard of its third case.  This definition
follows the spec text, for comparison against `displayStatus`. -/
def specStatus (closed : Bool) (sent recv : ℚ) : ReportStatus :=
  if closed ∧ recv < sent then .shortQtyCompleted
  else if closed then .complete
  else if recv ≥ sent ∧ sent > 0 then .complete
  else .pending

/-- Status precedence actually implemented by the report: identical to the
spec's precedence except that its third case has no `sent > 0` guard. -/
def implStatus (closed : Bool) (sent recv : ℚ) : ReportStatus :=
  if closed ∧ recv < sent then .shortQtyCompleted
  else if closed then .complete
  else if recv ≥ sent then .complete
  else .pending

/-- Short-close of an outward entry from the report detail view
(`Report.tsx` lines 43-52): the targeted entry becomes COMPLETED and is
re-marked unsynced; every other entry is untouched. -/
def markJobComplete (entries : List OutwardEntry) (outwardId : Nat) : List OutwardEntry :=
  entries.map (fun e =>
    if e.id = outwardId then { e with status := Status.COMPLETED, synced := false } else e)

/-- Rounding to three decimal places, the effect of JavaScript
`toFixed(3)` followed by `parseFloat`. -/
def round3 (q : ℚ) : ℚ := (round (q * 1000) : ℤ) / 1000

/-- The material weight a locally created entry carries (`Inward.tsx`
lines 44-46 and 111, `Outward.tsx` lines 38-43 and 99): the auto-calc
effect stores `(total − pendal).toFixed(3)` when positive and clears the
field otherwise, and submission parses that text with `parseFloat(...) || 0`. -/
def formMaterialWeight (totalWeight pendalWeight : ℚ) : ℚ :=
  let mat := totalWeight - pendalWeight
  if mat > 0 then round3 mat else 0

/-- The engine-side guard state of `App.tsx`: the in-flight flag and the
snapshot ref the running cycle will sync. -/
structure GuardState where
  isSyncing : Bool
  syncTarget : AppState
deriving DecidableEq, Repr

/-- Result of one `triggerAutoSync` invocation: the guard state afterwards
and whether a sync cycle was actually started. -/
structure TriggerResult where
  next : GuardState
  started : Bool
deriving DecidableEq, Repr

/-- Model of the single-flight guard of `triggerAutoSync` (`App.tsx` lines
61-75): without credentials nothing starts; while `isSyncing` is set the
request returns immediately, leaving the guard state untouched; otherwise
the snapshot ref is pointed at the caller's state and the busy flag is
raised as the cycle starts.  JavaScript's single-threaded execution makes
the check-then-set sequence atomic with respect to other requests. -/
def triggerAutoSync (hasCreds : Bool) (gs : GuardState) (latestState : AppState) :
    TriggerResult :=
  if hasCreds = false then ⟨gs, false⟩
  else if gs.isSyncing then ⟨gs, false⟩
  else ⟨⟨true, latestState⟩, true⟩

/-! ### General lemmas about the append phase -/

theorem stepAppend_ok_cases {fail : Bool} {n : Nat} {commit keep s : RemoteStore}
    (h : stepAppend fail n commit keep = .ok s) :
    (n = 0 ∧ s = keep) ∨ (n ≠ 0 ∧ fail = false ∧ s = commit) := by
  unfold stepAppend at h
  split_ifs at h with h1 h2 <;> simp_all

theorem stepAppend_error_store {fail : Bool} {n : Nat} {commit keep s : RemoteStore} {m : String}
    (h : stepAppend fail n commit keep = .error (s, m)) : s = keep := by
  unfold stepAppend at h
  split_ifs at h <;> simp_all

theorem stepAppend_ok_commit {fail : Bool} {n : Nat} {commit keep s : RemoteStore}
    (h : stepAppend fail n commit keep = .ok s) (hn : n = 0 → commit = keep) : s = commit := by
  rcases stepAppend_ok_cases h with ⟨h0, rfl⟩ | ⟨_, _, rfl⟩
  · exact (hn h0).symm
  · rfl

/-- On a fully successful append phase, the final store is the input store
with all six row batches appended (empty batches append nothing). -/
theorem appendPhase_ok {env : RemoteEnv} {v i : List (String × String)} {w u : List String}
    {o : List OutwardRow} {n : List InwardRow} {st : RemoteStore}
    (h : appendPhase env v i w u o n = .ok st) :
    st = { env.store with
      vendorRows := env.store.vendorRows ++ v
      itemRows := env.store.itemRows ++ i
      workRows := env.store.workRows ++ w
      userRows := env.store.userRows ++ u
      outwardRows := env.store.outwardRows ++ o
      inwardRows := env.store.inwardRows ++ n } := by
  unfold appendPhase at h
  simp only [bind, Except.bind] at h
  split at h
  · exact absurd h (by simp)
  · next s1 h1 =>
    have e1 : s1 = { env.store with vendorRows := env.store.vendorRows ++ v } :=
      stepAppend_ok_commit h1 (by intro h0; simp [List.length_eq_zero.mp h0])
    split at h
    · exact absurd h (by simp)
    · next s2 h2 =>
      have e2 : s2 = { s1 with itemRows := s1.itemRows ++ i } :=
        stepAppend_ok_commit h2 (by intro h0; simp [List.length_eq_zero.mp h0])
      split at h
      · exact absurd h (by simp)
      · next s3 h3 =>
        have e3 : s3 = { s2 with workRows := s2.workRows ++ w } :=
          stepAppend_ok_commit h3 (by intro h0; simp [List.length_eq_zero.mp h0])
        split at h
        · exact absurd h (by simp)
        · next s4 h4 =>
          have e4 : s4 = { s3 with userRows := s3.userRows ++ u } :=
            stepAppend_ok_commit h4 (by intro h0; simp [List.length_eq_zero.mp h0])
          split at h
          · exact absurd h (by simp)
          · next s5 h5 =>
            have e5 : s5 = { s4 with outwardRows := s4.outwardRows ++ o } :=
              stepAppend_ok_commit h5 (by intro h0; simp [List.length_eq_zero.mp h0])
            have e6 : st = { s5 with inwardRows := s5.inwardRows ++ n } :=
              stepAppend_ok_commit h (by intro h0; simp [List.length_eq_zero.mp h0])
            subst e1 e2 e3 e4 e5 e6
            rfl

/-- Every store an append phase can leave behind — also on a mid-phase
error — carries the input store's Reconciliation range unchanged: no
append step ever touches it. -/
theorem appendPhase_error_recon {env : RemoteEnv} {v i : List (String × String)}
    {w u : List String} {o : List OutwardRow} {n : List InwardRow} {st : RemoteStore} {m : String}
    (h : appendPhase env v i w u o n = .error (st, m)) :
    st.reconciliationRows = env.store.reconciliationRows := by
  unfold appendPhase at h
  simp only [bind, Except.bind] at h
  split at h
  · next e he =>
    rcases e with ⟨s, msg⟩
    cases h
    rw [stepAppend_error_store he]
  · next s1 h1 =>
    rcases stepAppend_ok_cases h1 with ⟨_, rfl⟩ | ⟨_, _, rfl⟩ <;>
    · split at h
      · next e he =>
        rcases e with ⟨s, msg⟩
        cases h
        rw [stepAppend_error_store he]
      · next s2 h2 =>
        rcases stepAppend_ok_cases h2 with ⟨_, rfl⟩ | ⟨_, _, rfl⟩ <;>
        · split at h
          · next e he =>
            rcases e with ⟨s, msg⟩
            cases h
            rw [stepAppend_error_store he]
          · next s3 h3 =>
            rcases stepAppend_ok_cases h3 with ⟨_, rfl⟩ | ⟨_, _, rfl⟩ <;>
            · split at h
              · next e he =>
                rcases e with ⟨s, msg⟩
                cases h
                rw [stepAppend_error_store he]
              · next s4 h4 =>
                rcases stepAppend_ok_cases h4 with ⟨_, rfl⟩ | ⟨_, _, rfl⟩ <;>
                · split at h
                  · next e he =>
                    rcases e with ⟨s, msg⟩
                    cases h
                    rw [stepAppend_error_store he]
                  · next s5 h5 =>
                    rcases stepAppend_ok_cases h5 with ⟨_, rfl⟩ | ⟨_, _, rfl⟩ <;>
                    · rcases stepAppend_error_store h with rfl
                      rfl

/-- The sync cycle never touches the remote Reconciliation range, whatever
happens: not on the no-token abort, not on a mid-cycle write failure, and
not on full success. -/
theorem sync_preserves_reconciliationRows (env : RemoteEnv) (state : AppState)
    (ts : String) (base : Nat) :
    (syncDataToSheets env state ts base).finalStore.reconciliationRows
      = env.store.reconciliationRows := by
  unfold syncDataToSheets
  split
  · rfl
  · split
    · next st m hap => exact appendPhase_error_recon hap
    · next st hap => rw [appendPhase_ok hap]

/-- Summing inward quantities with `reduce` is summing the mapped list. -/
theorem foldl_add_qty (l : List InwardEntry) :
    l.foldl (fun sum i => sum + i.qty) 0 = (l.map (·.qty)).sum := by
  suffices h : ∀ a : ℚ, l.foldl (fun sum i => sum + i.qty) a = a + (l.map (·.qty)).sum by
    simpa using h 0
  induction l with
  | nil => simp
  | cons x xs ih => intro a; simp [List.foldl_cons, ih, add_assoc]

/-! ### Shared concrete objects -/

/-- The empty application state. -/
def emptyState : AppState := ⟨[], [], [], [], [], []⟩

/-- The empty remote store. -/
def emptyStore : RemoteStore := ⟨[], [], [], [], [], [], []⟩

/-- An upload service on which every upload fails (returns `null`). -/
def noUpload : String → String → Option String := fun _ _ => none

/-- No append call fails. -/
def noFail : AppendTarget → Bool := fun _ => false

/-! ### Claim C10 — single-flight sync guard -/

/-- C10: a sync request arriving while a cycle is in progress is a no-op —
the busy flag makes `triggerAutoSync` return with the guard state
untouched and no cycle started (dropped, not queued) — and a request that
does start a cycle can only do so when no cycle was running, raising the
busy flag as it starts, so at most one cycle runs at a time. -/
theorem c10_single_flight_guard :
    (∀ (hasCreds : Bool) (gs : GuardState) (latest : AppState),
        gs.isSyncing = true → triggerAutoSync hasCreds gs latest = ⟨gs, false⟩)
    ∧ (∀ (hasCreds : Bool) (gs : GuardState) (latest : AppState),
        (triggerAutoSync hasCreds gs latest).started = true →
          gs.isSyncing = false ∧ (triggerAutoSync hasCreds gs latest).next = ⟨true, latest⟩) := by
  constructor
  · intro hasCreds gs latest hs
    unfold triggerAutoSync
    split_ifs with h1 <;> simp_all
  · intro hasCreds gs latest hstart
    unfold triggerAutoSync at hstart ⊢
    split_ifs at hstart ⊢ with h1 h2 <;> simp_all

/-- A busy guard state over the empty snapshot. -/
def gsBusy : GuardState := ⟨true, emptyState⟩

/-- An idle guard state over the empty snapshot. -/
def gsIdle : GuardState := ⟨false, emptyState⟩

theorem c10_single_flight_guard_witness :
    gsBusy.isSyncing = true ∧
    triggerAutoSync true gsBusy emptyState = ⟨gsBusy, false⟩ ∧
    (triggerAutoSync true gsIdle emptyState).started = true ∧
    (gsIdle.isSyncing = false ∧ (triggerAutoSync true gsIdle emptyState).next = ⟨true, emptyState⟩) :=
  ⟨rfl, c10_single_flight_guard.1 true gsBusy emptyState rfl, rfl,
    c10_single_flight_guard.2 true gsIdle emptyState rfl⟩

/-! ### Claim C9 — status never returns from COMPLETED to OPEN -/

/-- C9: the OPEN → COMPLETED transition is one-way.  The merge step keeps
an entry COMPLETED whenever the local entry matched by challan number is
COMPLETED, even when the remote row still says OPEN (`effectiveStatus`,
`sheets.ts` lines 295-296); and `markJobComplete` never moves any entry
out of COMPLETED — a shortfall on a COMPLETED entry surfaces only as the
report's recorded `shortQty` discrepancy, never as a reopening. -/
theorem c9_status_monotone :
    (∀ (state : AppState) (allV : List Vendor) (allI : List Item) (allW : List WorkType)
        (ts : String) (fid : Nat) (r : OutwardRow) (e : OutwardEntry),
        state.outwardEntries.find? (fun o => o.challanNo == r.challanNo) = some e →
        e.status = Status.COMPLETED →
        (mergeOutwardEntry state allV allI allW ts fid r).status = Status.COMPLETED)
    ∧ (∀ (entries : List OutwardEntry) (oid : Nat) (k : Nat) (e e' : OutwardEntry),
        entries.get? k = some e → (markJobComplete entries oid).get? k = some e' →
        e.status = Status.COMPLETED → e'.status = Status.COMPLETED) := by
  constructor
  · intro state allV allI allW ts fid r e hfind hC
    unfold mergeOutwardEntry
    dsimp only
    rw [hfind]
    simp [hC]
  · intro entries oid k e e' he he' hC
    unfold markJobComplete at he'
    rw [List.get?_map, he] at he'
    have he'' : (if e.id = oid then
        { e with status := Status.COMPLETED, synced := false } else e) = e' := by
      simpa using he'
    subst he''
    split_ifs <;> simp [hC]

/-- A COMPLETED local entry whose challan matches `rowW9`. -/
def oW9 : OutwardEntry :=
  ⟨5, "2025-03-01T00:00:00.000Z", none, "K1", none, 4, 0, 0, 0, 0, none, "", "", "", "", "",
    .COMPLETED, true⟩

/-- A local state holding `oW9`. -/
def stW9 : AppState := ⟨[], [], [], [], [oW9], []⟩

/-- A remote outward row for the same challan but still marked OPEN. -/
def rowW9 : OutwardRow :=
  ⟨"01-Mar-2025", "V", "K1", "S", 4, 0, 0, 0, 0, "", "", "", "", "", .OPEN, "TS"⟩

theorem c9_status_monotone_witness :
    stW9.outwardEntries.find? (fun o => o.challanNo == rowW9.challanNo) = some oW9 ∧
    oW9.status = Status.COMPLETED ∧
    rowW9.status = Status.OPEN ∧
    (mergeOutwardEntry stW9 [] [] [] "TS" 77 rowW9).status = Status.COMPLETED ∧
    oW9.status = Status.COMPLETED :=
  ⟨by decide, rfl, rfl,
    c9_status_monotone.1 stW9 [] [] [] "TS" 77 rowW9 oW9 (by decide) rfl,
    c9_status_monotone.2 [oW9] 90 0 oW9 oW9 (by decide) (by decide) rfl⟩

/-! ### Claim C6 — quantity conservation in the report -/

/-- C6: for every outward entry, the report's `qtyReceived` is the sum of
`qty` over exactly the inward entries referencing it by
`outwardChallanId`, and `shortQty` is `max(0, sent − received)` exactly
when the entry is closed (COMPLETED) and `0` otherwise. -/
theorem c6_qty_conservation (s : AppState) (o : OutwardEntry) :
    (reportRowFor s o).inQty
        = ((s.inwardEntries.filter (fun i => i.outwardChallanId == some o.id)).map (·.qty)).sum
      ∧ (reportRowFor s o).shortQty
        = (if o.status = Status.COMPLETED then max 0 (o.qty - (reportRowFor s o).inQty) else 0) := by
  constructor
  · dsimp only [reportRowFor]
    exact foldl_add_qty _
  · rfl

/-! ### Claim C5 — report status precedence -/

/-- An OPEN outward entry with `qty = 0` and no matched inward entries. -/
def oC5 : OutwardEntry :=
  ⟨50, "2025-03-10T00:00:00.000Z", none, "C5", none, 0, 0, 0, 0, 0, none, "", "", "", "", "",
    .OPEN, false⟩

/-- A state holding only `oC5`. -/
def stC5 : AppState := ⟨[], [], [], [], [oC5], []⟩

/-- C5 (counterexample): the claimed precedence says an OPEN outward entry
with `sent = 0` and `received = 0` is `pending` (its third case requires
`sent > 0`), but the code renders it as complete: `pending = max(0, 0−0) =
0 ≤ 0` makes `isCompleted` true with `shortQty = 0`. -/
theorem c5_zero_qty_open_entry_cex :
    oC5.status = Status.OPEN ∧ oC5.qty = 0 ∧ (reportRowFor stC5 oC5).inQty = 0 ∧
    displayStatus (reportRowFor stC5 oC5) = ReportStatus.complete ∧
    specStatus (oC5.status == Status.COMPLETED) oC5.qty (reportRowFor stC5 oC5).inQty
      = ReportStatus.pending ∧
    displayStatus (reportRowFor stC5 oC5)
      ≠ specStatus (oC5.status == Status.COMPLETED) oC5.qty (reportRowFor stC5 oC5).inQty := by
  with_unfolding_all decide

/-- C5 (amended): the report's status assignment follows the claimed
first-match-wins precedence except that its third case has no `sent > 0`
guard: (1) closed and received < sent → short-qty-completed; (2) closed →
complete; (3) received ≥ sent → complete; (4) otherwise pending.  The
claimed precedence agrees with the implemented one whenever `sent > 0` or
the entry is closed; in particular outward `qty 10, OPEN` with inward sum
10 is complete, and `qty 10, COMPLETED` with inward sum 7 is
short-qty-completed with `shortQty = 3`. -/
theorem c5_amended_status_precedence (s : AppState) (o : OutwardEntry) :
    displayStatus (reportRowFor s o)
      = implStatus (o.status == Status.COMPLETED) o.qty (reportRowFor s o).inQty
    ∧ ∀ (closed : Bool) (sent recv : ℚ), (0 < sent ∨ closed = true) →
        implStatus closed sent recv = specStatus closed sent recv := by
  constructor
  · dsimp only [displayStatus, implStatus, reportRowFor]
    cases hst : o.status with
    | COMPLETED =>
      have hmax : (0:ℚ) < max 0 (o.qty - (reportRowFor s o).inQty) ↔
          (reportRowFor s o).inQty < o.qty := by
        rw [lt_max_iff, sub_pos]
        simp
      by_cases h : (reportRowFor s o).inQty < o.qty
      · simp_all [reportRowFor, gt_iff_lt]
      · simp_all [reportRowFor, gt_iff_lt]
        rw [if_neg (not_lt.mpr h)]
    | OPEN =>
      have hmax : max 0 (o.qty - (reportRowFor s o).inQty) ≤ 0 ↔
          o.qty ≤ (reportRowFor s o).inQty := by
        rw [max_le_iff, sub_nonpos]
        simp
      by_cases h : o.qty ≤ (reportRowFor s o).inQty <;>
        simp_all [reportRowFor, ge_iff_le, not_le]
  · intro closed sent recv h
    unfold implStatus specStatus
    cases closed with
    | true => simp
    | false =>
      have hsent : (0:ℚ) < sent := by
        rcases h with h | h
        · exact h
        · cases h
      by_cases hr : recv ≥ sent <;> simp [hr, hsent]

/-- The spec's short-close example: COMPLETED outward `qty 10` with a
single matched inward of `qty 7`. -/
def oW5 : OutwardEntry :=
  ⟨51, "2025-03-10T00:00:00.000Z", none, "W5", none, 10, 0, 0, 0, 0, none, "", "", "", "", "",
    .COMPLETED, true⟩

/-- An inward entry of `qty 7` referencing `oW5`. -/
def iW5 : InwardEntry :=
  ⟨52, "2025-03-15T00:00:00.000Z", some 51, none, none, 7, 0, 0, 0, 0, "", "", "", "", "", true⟩

/-- State for the short-close example. -/
def stW5 : AppState := ⟨[], [], [], [], [oW5], [iW5]⟩

theorem c5_amended_status_precedence_witness :
    ((0:ℚ) < 10 ∨ false = true) ∧
    implStatus false 10 10 = specStatus false 10 10 ∧
    displayStatus (reportRowFor stW5 oW5)
      = implStatus (oW5.status == Status.COMPLETED) oW5.qty (reportRowFor stW5 oW5).inQty ∧
    displayStatus (reportRowFor stW5 oW5) = ReportStatus.shortQtyCompleted ∧
    (reportRowFor stW5 oW5).shortQty = 3 :=
  ⟨Or.inl (by norm_num),
    (c5_amended_status_precedence stW5 oW5).2 false 10 10 (Or.inl (by norm_num)),
    (c5_amended_status_precedence stW5 oW5).1,
    by with_unfolding_all decide,
    by with_unfolding_all decide⟩

/-! ### Claim C3 — partial failure handling -/

/-- An unsynced outward candidate for the partial-failure scenario. -/
def oC3 : OutwardEntry :=
  ⟨21, "2025-03-10T00:00:00.000Z", some 1, "CX", none, 2, 0, 0, 0, 0, none, "", "", "", "", "",
    .OPEN, false⟩

/-- An unsynced inward candidate referencing `oC3`. -/
def iC3 : InwardEntry :=
  ⟨22, "2025-03-11T00:00:00.000Z", some 21, some 1, none, 2, 0, 0, 0, 0, "", "", "", "", "", false⟩

/-- State with one unsynced outward and one unsynced inward candidate. -/
def stC3 : AppState := ⟨[⟨1, "V", "VC", true⟩], [], [], [], [oC3], [iC3]⟩

/-- A remote world in which the inward append throws a transient error
while every other call succeeds. -/
def envC3 : RemoteEnv := ⟨emptyStore, true, noUpload, fun t => t == AppendTarget.inward⟩

/-- The outcome of the partial-failure cycle. -/
def outcomeC3 : SyncOutcome := syncDataToSheets envC3 stC3 "TS" 100

/-- C3 (counterexample): a transient remote write failure after partial
writes does NOT return the best-known merged state.  Here the outward
append succeeded (one row is durably in the remote store) and the inward
append then failed; the cycle returns the structured failure outcome but
`onUpdateState` is never invoked — the merged state incorporating the
completed write is discarded rather than returned. -/
theorem c3_partial_writes_discarded_cex :
    outcomeC3.success = false ∧
    outcomeC3.updated = none ∧
    outcomeC3.finalStore.outwardRows.length = 1 ∧
    outcomeC3.finalStore.inwardRows.length = 0 ∧
    (validInwardToUploadOf envC3.store stC3).length = 1 ∧
    outcomeC3.message = "Sync failed" := by
  with_unfolding_all decide

/-- C3 (amended): a mid-cycle remote failure — like every other outcome of
the engine — surfaces as a structured `{success, message}` result and
never throws past the boundary, but the engine hands a merged state to
`onUpdateState` exactly on full success: on any failure the local state is
left untouched and the writes that already succeeded persist only
remotely, to be reconciled by the duplicate-detection indexes of a later
cycle. -/
theorem c3_amended_structured_outcome_no_partial_state (env : RemoteEnv) (state : AppState)
    (ts : String) (base : Nat) :
    (syncDataToSheets env state ts base).updated.isSome
      = (syncDataToSheets env state ts base).success := by
  unfold syncDataToSheets
  split
  · rfl
  · split <;> rfl

/-! ### Claim C7 — the Reconciliation range is never written -/

/-- A remote store whose Reconciliation range holds one stale row. -/
def staleReconStore : RemoteStore := ⟨[], [], [], [], [], [], [["stale"]]⟩

/-- The remote world for the stale-reconciliation scenario. -/
def envC7 : RemoteEnv := ⟨staleReconStore, true, noUpload, noFail⟩

/-- The outcome of a successful sync cycle over `envC7`. -/
def outcomeC7 : SyncOutcome := syncDataToSheets envC7 emptyState "TS" 0

/-- C7 (counterexample): a successful sync cycle leaves the remote
Reconciliation range exactly as it found it.  Here the merged state is
empty, so the recomputed report is the empty row list, yet the stale
remote content survives the cycle — the range is not cleared and
rewritten as the claim states. -/
theorem c7_reconciliation_not_overwritten_cex :
    outcomeC7.success = true ∧
    outcomeC7.updated.isSome = true ∧
    (outcomeC7.updated.getD emptyState).outwardEntries.map
      (reportRowFor (outcomeC7.updated.getD emptyState)) = [] ∧
    outcomeC7.finalStore.reconciliationRows = [["stale"]] ∧
    outcomeC7.finalStore.reconciliationRows ≠ [] := by
  with_unfolding_all decide

/-- C7 (amended): the reconciliation report is computed as a pure function
of the outward and inward lists (`Report.tsx`) for display and CSV export
only; the sync cycle performs no write to the remote Reconciliation range
at all — it is never cleared, rewritten, appended to, or diffed, under any
input, failure pattern or outcome. -/
theorem c7_amended_reconciliation_never_written (env : RemoteEnv) (state : AppState)
    (ts : String) (base : Nat) :
    (syncDataToSheets env state ts base).finalStore.reconciliationRows
      = env.store.reconciliationRows :=
  sync_preserves_reconciliationRows env state ts base

/-! ### Claim C4 — materialWeight -/

theorem round3_nonneg {q : ℚ} (h : 0 ≤ q) : 0 ≤ round3 q := by
  unfold round3
  apply div_nonneg _ (by norm_num)
  have h1000 : (0:ℚ) ≤ q * 1000 := by nlinarith
  have : (0:ℤ) ≤ round (q * 1000) := by
    rw [round_eq]
    refine Int.le_floor.mpr ?_
    push_cast
    linarith
  exact_mod_cast this

theorem round3_nonpos {q : ℚ} (h : q ≤ 0) : round3 q ≤ 0 := by
  unfold round3
  have h1000 : q * 1000 ≤ 0 := by nlinarith
  have hfl : round (q * 1000) ≤ 0 := by
    rw [round_eq]
    have h2 : q * 1000 + 1 / 2 ≤ 1 / 2 := by linarith
    have h3 : (⌊q * 1000 + 1 / 2⌋ : ℤ) ≤ ⌊(1 : ℚ) / 2⌋ := Int.floor_le_floor h2
    have h4 : (⌊(1 : ℚ) / 2⌋ : ℤ) = 0 := by
      rw [Int.floor_eq_zero_iff]
      constructor <;> norm_num
    omega
  have hcast : ((round (q * 1000) : ℤ) : ℚ) ≤ 0 := by exact_mod_cast hfl
  exact div_nonpos_iff.mpr (Or.inr ⟨hcast, by norm_num⟩)

/-- A remote outward row whose `materialWeight` cell disagrees with its
weight columns: `totalWeight 12.5`, `pendalWeight 2.5`, but the cell holds
`−5`. -/
def rowC4 : OutwardRow :=
  ⟨"10-Mar-2025", "V", "C9", "S", 1, 0, 12.5, 2.5, -5, "", "", "", "", "", .OPEN, "T"⟩

/-- The remote world holding only `rowC4`. -/
def envC4 : RemoteEnv := ⟨⟨[], [], [], [], [rowC4], [], []⟩, true, noUpload, noFail⟩

/-- The outcome of syncing an empty local state against `envC4`. -/
def outcomeC4 : SyncOutcome := syncDataToSheets envC4 emptyState "TS" 100

/-- C4 (counterexample): the merge step takes `materialWeight` blindly
from the remote row's column (`parseFloat(r[8])`, `sheets.ts` line 303)
and does not recompute it: a row with `totalWeight 12.5`, `pendalWeight
2.5` but a `materialWeight` cell of `−5` merges into an entry whose
`materialWeight` is `−5` — not `max(0, 12.5 − 2.5) = 10`, and negative. -/
theorem c4_merge_trusts_remote_materialWeight_cex :
    outcomeC4.success = true ∧
    (outcomeC4.updated.getD emptyState).outwardEntries.map (·.materialWeight) = [-5] ∧
    (outcomeC4.updated.getD emptyState).outwardEntries.map (·.totalWeight) = [12.5] ∧
    (outcomeC4.updated.getD emptyState).outwardEntries.map (·.pendalWeight) = [2.5] ∧
    ¬((-5 : ℚ) = max 0 (12.5 - 2.5)) ∧
    (-5 : ℚ) < 0 := by
  refine ⟨by with_unfolding_all decide, by with_unfolding_all decide,
    by with_unfolding_all decide, by with_unfolding_all decide, by norm_num, by norm_num⟩

/-- C4 (amended): `materialWeight = max(0, totalWeight − pendalWeight)`
(up to the three-decimal rounding of `toFixed(3)`) holds for every locally
created entry — the entry forms recompute it from the weight fields, and
`12.5 − 2.5` gives exactly `10` — but the merge step does not recompute
it: both merges copy the remote row's `materialWeight` column verbatim, so
a merged entry's `materialWeight` is whatever the remote cell holds,
negative values included. -/
theorem c4_amended_materialWeight :
    (∀ tw pw : ℚ, formMaterialWeight tw pw = max 0 (round3 (tw - pw)))
    ∧ (∀ (state : AppState) (allV : List Vendor) (allI : List Item) (allW : List WorkType)
        (ts : String) (fid : Nat) (r : OutwardRow),
        (mergeOutwardEntry state allV allI allW ts fid r).materialWeight = r.materialWeight)
    ∧ (∀ (state : AppState) (allV : List Vendor) (allI : List Item)
        (fo : List OutwardEntry) (ts : String) (fid : Nat) (r : InwardRow),
        (mergeInwardEntry state allV allI fo ts fid r).materialWeight = r.materialWeight)
    ∧ formMaterialWeight 12.5 2.5 = 10 := by
  refine ⟨?_, fun _ _ _ _ _ _ _ => rfl, fun _ _ _ _ _ _ _ => rfl, ?_⟩
  · intro tw pw
    unfold formMaterialWeight
    by_cases hd : tw - pw > 0
    · rw [if_pos hd, eq_comm]
      exact max_eq_right (round3_nonneg hd.le)
    · rw [if_neg hd, eq_comm]
      exact max_eq_left (round3_nonpos (not_lt.mp hd))
  · have hsub : (12.5 : ℚ) - 2.5 = 10 := by norm_num
    unfold formMaterialWeight
    rw [hsub, if_pos (by norm_num : (10:ℚ) > 0)]
    unfold round3
    have : ((10 : ℚ) * 1000) = ((10000 : ℤ) : ℚ) := by norm_num
    rw [this, round_intCast]
    norm_num

/-! ### Claim C1 — attachment failure handling -/

/-- On a successful cycle the outcome is exactly the success record: the
fully-appended store and the merged state handed to `onUpdateState`. -/
theorem sync_success_eq {env : RemoteEnv} {state : AppState} {ts : String} {base : Nat}
    (h : (syncDataToSheets env state ts base).success = true) :
    syncDataToSheets env state ts base
      = ⟨storeAfterSuccess env state ts base, some (mergedStateOf env state ts base), true,
          "Sync Complete: " ++ ts⟩ := by
  unfold syncDataToSheets at h ⊢
  by_cases hTok : env.hasToken = false
  · rw [if_pos hTok] at h
    simp at h
  · rw [if_neg hTok] at h ⊢
    cases hap : appendPhase env (vendorAppendRows base env.store state)
        (itemAppendRows base env.store state) (workAppendRows base env.store state)
        (userAppendRows base env.store state) (newOutwardRowsOf env state ts)
        (newInwardRowsOf env state ts) with
    | error e =>
      rw [hap] at h
      rcases e with ⟨st, m⟩
      simp at h
    | ok st =>
      rw [appendPhase_ok hap]
      rfl

/-- Every entry the outward merge produces is marked synced. -/
theorem mergeOutwardRows_synced (state : AppState) (aV : List Vendor) (aI : List Item)
    (aW : List WorkType) (ts : String) :
    ∀ (fid : Nat) (rows : List OutwardRow) (e : OutwardEntry),
      e ∈ mergeOutwardRows state aV aI aW ts fid rows → e.synced = true := by
  intro fid rows
  induction rows generalizing fid with
  | nil => intro e he; simp [mergeOutwardRows] at he
  | cons r rs ih =>
    intro e he
    rcases List.mem_cons.mp he with rfl | h
    · rfl
    · exact ih _ _ h

/-- Every entry the inward merge produces is marked synced. -/
theorem mergeInwardRows_synced (state : AppState) (aV : List Vendor) (aI : List Item)
    (fo : List OutwardEntry) (ts : String) :
    ∀ (fid : Nat) (rows : List InwardRow) (e : InwardEntry),
      e ∈ mergeInwardRows state aV aI fo ts fid rows → e.synced = true := by
  intro fid rows
  induction rows generalizing fid with
  | nil => intro e he; simp [mergeInwardRows] at he
  | cons r rs ih =>
    intro e he
    rcases List.mem_cons.mp he with rfl | h
    · rfl
    · exact ih _ _ h

/-- C1 (amended): an explicit attachment-upload failure does not exclude
the candidate from the batch.  On a successful cycle the outward range
gains exactly one row per to-upload candidate, whatever the upload
outcomes; a candidate whose upload failed is appended with an empty
`photoUrl` cell; and every outward entry of the merged state handed back —
the failing candidate's included — carries `synced = true`. -/
theorem c1_amended_upload_failure_still_appended (env : RemoteEnv) (state : AppState)
    (ts : String) (base : Nat)
    (h : (syncDataToSheets env state ts base).success = true) :
    (syncDataToSheets env state ts base).finalStore.outwardRows
        = env.store.outwardRows ++ newOutwardRowsOf env state ts
    ∧ (newOutwardRowsOf env state ts).length = (validOutwardToUploadOf env.store state).length
    ∧ (∀ e ∈ validOutwardToUploadOf env.store state,
        e.photoUrl = "" → e.photo ≠ "" →
        env.uploadPhoto e.photo ("OUT_" ++ e.challanNo ++ ".jpg") = none →
        (outwardRowOf env.uploadPhoto state ts e).photoUrl = "")
    ∧ (∀ st, (syncDataToSheets env state ts base).updated = some st →
        ∀ e ∈ st.outwardEntries, e.synced = true) := by
  have hs := sync_success_eq h
  refine ⟨by rw [hs]; rfl, by unfold newOutwardRowsOf; exact List.length_map .., ?_, ?_⟩
  · intro e _ hurl hphoto hup
    unfold outwardRowOf
    dsimp only
    rw [if_pos ⟨hurl, hphoto⟩, hup]
    rfl
  · intro st hst e he
    rw [hs] at hst
    have hst' : mergedStateOf env state ts base = st := by
      simpa using hst
    subst hst'
    exact mergeOutwardRows_synced state _ _ _ ts _ _ e he

/-- Three unsynced outward candidates, each carrying a photo. -/
def outA : OutwardEntry :=
  ⟨11, "2025-03-10T00:00:00.000Z", some 1, "CA", none, 1, 0, 0, 0, 0, none, "pa", "", "", "", "",
    .OPEN, false⟩

/-- Second candidate; its photo upload will fail. -/
def outB : OutwardEntry :=
  ⟨12, "2025-03-10T00:00:00.000Z", some 1, "CB", none, 1, 0, 0, 0, 0, none, "pb", "", "", "", "",
    .OPEN, false⟩

/-- Third candidate. -/
def outC : OutwardEntry :=
  ⟨13, "2025-03-10T00:00:00.000Z", some 1, "CC", none, 1, 0, 0, 0, 0, none, "pc", "", "", "", "",
    .OPEN, false⟩

/-- State with one synced vendor and the three candidates. -/
def stC1 : AppState := ⟨[⟨1, "V", "VC", true⟩], [], [], [], [outA, outB, outC], []⟩

/-- A remote world whose upload service fails exactly on `outB`'s photo. -/
def envC1 : RemoteEnv :=
  ⟨emptyStore, true, fun p _ => if p = "pb" then none else some ("url-" ++ p), noFail⟩

/-- The outcome of the failure-isolation cycle. -/
def outcomeC1 : SyncOutcome := syncDataToSheets envC1 stC1 "TS" 100

/-- C1 (counterexample): with 3 outward candidates and exactly 1 failing
attachment upload, the cycle appends 3 rows — not 2 — because the failing
candidate is not excluded: its row is appended with an empty `photoUrl`,
and the merged state marks it `synced = true` instead of keeping it
unsynced. -/
theorem c1_upload_failure_not_excluded_cex :
    outcomeC1.success = true ∧
    outcomeC1.finalStore.outwardRows.length = 3 ∧
    outcomeC1.finalStore.outwardRows.length ≠ envC1.store.outwardRows.length + 2 ∧
    outcomeC1.finalStore.outwardRows.map (fun r => (r.challanNo, r.photoUrl))
      = [("CA", "url-pa"), ("CB", ""), ("CC", "url-pc")] ∧
    (outcomeC1.updated.getD emptyState).outwardEntries.map
        (fun e => (e.id, e.challanNo, e.synced))
      = [(11, "CA", true), (12, "CB", true), (13, "CC", true)] ∧
    envC1.uploadPhoto outB.photo ("OUT_" ++ outB.challanNo ++ ".jpg") = none := by
  with_unfolding_all decide

theorem c1_amended_witness :
    (syncDataToSheets envC1 stC1 "TS" 100).success = true ∧
    (syncDataToSheets envC1 stC1 "TS" 100).finalStore.outwardRows
      = envC1.store.outwardRows ++ newOutwardRowsOf envC1 stC1 "TS" ∧
    (newOutwardRowsOf envC1 stC1 "TS").length = (validOutwardToUploadOf envC1.store stC1).length ∧
    (outwardRowOf envC1.uploadPhoto stC1 "TS" outB).photoUrl = "" := by
  have hsucc : (syncDataToSheets envC1 stC1 "TS" 100).success = true := by
    with_unfolding_all decide
  have hmain := c1_amended_upload_failure_still_appended envC1 stC1 "TS" 100 hsucc
  exact ⟨hsucc, hmain.1, hmain.2.1,
    hmain.2.2.1 outB (by with_unfolding_all decide) rfl (by decide) (by decide)⟩

/-! ### Claim C2 — inward idempotency -/

/-- An unsynced inward candidate received against challan `C1`. -/
def candIn : InwardEntry :=
  ⟨3, "2025-03-12T00:00:00.000Z", some 2, some 1, none, 5, 0, 0, 0, 0, "", "", "", "", "", false⟩

/-- The remote outward row for challan `C1`, as a previous cycle wrote it
(its date cell is `formatDisplayDate` output). -/
def outSyncedRow : OutwardRow :=
  ⟨"10-Mar-2025", "V", "C1", "SKU1", 10, 0, 0, 0, 0, "", "", "", "", "", .OPEN, "TS0"⟩

/-- The remote store before cycle 1: vendor master and the outward row. -/
def storeC2 : RemoteStore := ⟨[("V", "VC")], [], [], [], [outSyncedRow], [], []⟩

/-- Local state before cycle 1: synced vendor and outward entry, plus the
unsynced inward candidate. -/
def stC2 : AppState :=
  ⟨[⟨1, "V", "VC", true⟩], [], [], [],
    [⟨2, "2025-03-10T00:00:00.000Z", some 1, "C1", none, 10, 0, 0, 0, 0, none, "", "", "", "", "",
      .OPEN, true⟩],
    [candIn]⟩

/-- The remote world of cycle 1. -/
def envC2a : RemoteEnv := ⟨storeC2, true, noUpload, noFail⟩

/-- Cycle 1: uploads the inward candidate. -/
def outcome1C2 : SyncOutcome := syncDataToSheets envC2a stC2 "TS1" 100

/-- The resubmitted receipt: a new local entry with the same
(date, vendor, outward challan, received quantity) tuple, different
remarks. -/
def candIn2 : InwardEntry :=
  ⟨4, "2025-03-12T00:00:00.000Z", some 2, some 100, none, 5, 0, 0, 0, 0, "again", "", "", "", "",
    false⟩

/-- Local state before cycle 2: the merged state of cycle 1 plus the
resubmitted entry. -/
def st2C2 : AppState :=
  let s := outcome1C2.updated.getD emptyState
  { s with inwardEntries := s.inwardEntries ++ [candIn2] }

/-- The remote world of cycle 2: the store as cycle 1 left it. -/
def envC2b : RemoteEnv := ⟨outcome1C2.finalStore, true, noUpload, noFail⟩

/-- Cycle 2: should be a no-op for the resubmitted tuple, per the claim. -/
def outcome2C2 : SyncOutcome := syncDataToSheets envC2b st2C2 "TS2" 200

/-- C2 (code evaluated at the failing input): resubmitting the same
(date, vendor, outward-challan, qty) tuple across two cycles creates a
second remote inward row.  The remote row's date cell holds
`formatDisplayDate` output (`"12-Mar-2025"`), while the local candidate's
signature uses its ISO date (`"2025-03-12"`); `getInwardSignature` splits
on `'T'`, so the two signatures can never match, the candidate is not
filtered, and the duplicate is appended. -/
theorem c2_inward_dedup_format_mismatch :
    outcome1C2.success = true ∧
    outcome1C2.finalStore.inwardRows.map
        (fun r => (r.date, r.vendorName, r.outwardChallanNo, r.qty))
      = [("12-Mar-2025", "V", "C1", 5)] ∧
    outcome2C2.success = true ∧
    outcome2C2.finalStore.inwardRows.map
        (fun r => (r.date, r.vendorName, r.outwardChallanNo, r.qty))
      = [("12-Mar-2025", "V", "C1", 5), ("12-Mar-2025", "V", "C1", 5)] ∧
    outcome2C2.finalStore.inwardRows.length = 2 ∧
    seenInwardSignaturesOf outcome1C2.finalStore
      = [getInwardSignature "12-Mar-2025" "V" "C1" 5] ∧
    inwardCandidateSignature st2C2 candIn2
      = getInwardSignature "2025-03-12T00:00:00.000Z" "V" "C1" 5 ∧
    getInwardSignature "12-Mar-2025" "V" "C1" 5
      ≠ getInwardSignature "2025-03-12T00:00:00.000Z" "V" "C1" 5 := by
  with_unfolding_all decide

/-! ### Claim C8 — idempotence of consecutive sync cycles

The remaining development observes the merged state through resolution
views (the way the UI renders entries: references resolved to master
names), in order to state that a second cycle leaves the state unchanged
even though the parse step assigns fresh identifiers to every remote
row. -/

/-- The vendor name an entry's `vendorId` resolves to (`|| 'Unknown'`). -/
def vendorNameView (s : AppState) (vid : Option Nat) : String :=
  jsOr (((s.vendors.find? (fun v => (some v.id : Option Nat) == vid)).map (·.name)).getD "")
    "Unknown"

/-- The SKU an entry's `skuId` resolves to (`|| 'Unknown'`). -/
def skuView (s : AppState) (iid : Option Nat) : String :=
  jsOr (((s.items.find? (fun i => (some i.id : Option Nat) == iid)).map (·.sku)).getD "")
    "Unknown"

/-- The work name an entry's `workId` resolves to (`|| ''`). -/
def workNameView (s : AppState) (wid : Option Nat) : String :=
  ((s.workTypes.find? (fun w => (some w.id : Option Nat) == wid)).map (·.name)).getD ""

/-- The outward challan an inward entry's reference resolves to. -/
def outChallanView (s : AppState) (oid : Option Nat) : Option String :=
  (s.outwardEntries.find? (fun o => (some o.id : Option Nat) == oid)).map (·.challanNo)

/-- The identifier-free observable content of an outward entry within a
state: its row data with the three master references resolved. -/
def outwardContentOf (s : AppState) (e : OutwardEntry) :
    String × String × String × String × ℚ × ℚ × ℚ × ℚ × ℚ × String × String × String ×
      String × String × Status × Bool :=
  (e.date, vendorNameView s e.vendorId, e.challanNo, skuView s e.skuId, e.qty, e.comboQty,
   e.totalWeight, e.pendalWeight, e.materialWeight, e.checkedBy, e.enteredBy, e.photoUrl,
   workNameView s e.workId, e.remarks, e.status, e.synced)

/-- The identifier-free observable content of an inward entry within a
state. -/
def inwardContentOf (s : AppState) (e : InwardEntry) :
    String × String × Option String × String × ℚ × ℚ × ℚ × ℚ × ℚ × String × String ×
      String × String × Bool :=
  (e.date, vendorNameView s e.vendorId, outChallanView s e.outwardChallanId, skuView s e.skuId,
   e.qty, e.comboQty, e.totalWeight, e.pendalWeight, e.materialWeight, e.checkedBy, e.enteredBy,
   e.photoUrl, e.remarks, e.synced)

/-- The identifier-free observable content of a whole application state. -/
def stateContent (s : AppState) :=
  (s.vendors.map (fun v => (v.name, v.code)), s.items.map (fun i => (i.sku, i.description)),
   s.workTypes.map (·.name), s.users.map (·.name),
   s.outwardEntries.map (outwardContentOf s), s.inwardEntries.map (inwardContentOf s))

/-! Parse-phase facts -/

theorem parseVendors_map_namecode (b : Nat) (rows : List (String × String)) :
    (parseVendors b rows).map (fun v => (v.name, v.code)) = rows := by
  induction rows generalizing b with
  | nil => rfl
  | cons r rs ih => simp [parseVendors, ih]

theorem parseItems_map_skudesc (b : Nat) (rows : List (String × String)) :
    (parseItems b rows).map (fun i => (i.sku, i.description)) = rows := by
  induction rows generalizing b with
  | nil => rfl
  | cons r rs ih => simp [parseItems, ih]

theorem parseWorks_map_name (b : Nat) (rows : List String) :
    (parseWorks b rows).map (·.name) = rows := by
  induction rows generalizing b with
  | nil => rfl
  | cons r rs ih => simp [parseWorks, ih]

theorem parseUsers_map_name (b : Nat) (rows : List String) :
    (parseUsers b rows).map (·.name) = rows := by
  induction rows generalizing b with
  | nil => rfl
  | cons r rs ih => simp [parseUsers, ih]

theorem parseVendors_synced (b : Nat) (rows : List (String × String)) :
    ∀ v ∈ parseVendors b rows, v.synced = true := by
  induction rows generalizing b with
  | nil => simp [parseVendors]
  | cons r rs ih =>
    intro v hv
    rcases List.mem_cons.mp hv with rfl | h
    · rfl
    · exact ih _ v h

theorem parseItems_synced (b : Nat) (rows : List (String × String)) :
    ∀ i ∈ parseItems b rows, i.synced = true := by
  induction rows generalizing b with
  | nil => simp [parseItems]
  | cons r rs ih =>
    intro i hi
    rcases List.mem_cons.mp hi with rfl | h
    · rfl
    · exact ih _ i h

theorem parseWorks_synced (b : Nat) (rows : List String) :
    ∀ w ∈ parseWorks b rows, w.synced = true := by
  induction rows generalizing b with
  | nil => simp [parseWorks]
  | cons r rs ih =>
    intro w hw
    rcases List.mem_cons.mp hw with rfl | h
    · rfl
    · exact ih _ w h

theorem parseUsers_synced (b : Nat) (rows : List String) :
    ∀ u ∈ parseUsers b rows, u.synced = true := by
  induction rows generalizing b with
  | nil => simp [parseUsers]
  | cons r rs ih =>
    intro u hu
    rcases List.mem_cons.mp hu with rfl | h
    · rfl
    · exact ih _ u h

theorem parseVendors_id_bounds (b : Nat) (rows : List (String × String)) :
    ∀ v ∈ parseVendors b rows, b ≤ v.id ∧ v.id < b + rows.length := by
  induction rows generalizing b with
  | nil => simp [parseVendors]
  | cons r rs ih =>
    intro v hv
    rcases List.mem_cons.mp hv with rfl | h
    · simp
    · have := ih (b + 1) v h
      constructor <;> [omega; (simp only [List.length_cons]; omega)]

theorem parseVendors_ids_nodup (b : Nat) (rows : List (String × String)) :
    ((parseVendors b rows).map (·.id)).Nodup := by
  induction rows generalizing b with
  | nil => simp [parseVendors]
  | cons r rs ih =>
    simp only [parseVendors, List.map_cons, List.nodup_cons]
    refine ⟨?_, ih (b + 1)⟩
    intro hmem
    rcases List.mem_map.mp hmem with ⟨v, hv, hid⟩
    have := (parseVendors_id_bounds (b + 1) rs v hv).1
    omega

theorem parseItems_id_bounds (b : Nat) (rows : List (String × String)) :
    ∀ i ∈ parseItems b rows, b ≤ i.id ∧ i.id < b + rows.length := by
  induction rows generalizing b with
  | nil => simp [parseItems]
  | cons r rs ih =>
    intro i hi
    rcases List.mem_cons.mp hi with rfl | h
    · simp
    · have := ih (b + 1) i h
      constructor <;> [omega; (simp only [List.length_cons]; omega)]

theorem parseItems_ids_nodup (b : Nat) (rows : List (String × String)) :
    ((parseItems b rows).map (·.id)).Nodup := by
  induction rows generalizing b with
  | nil => simp [parseItems]
  | cons r rs ih =>
    simp only [parseItems, List.map_cons, List.nodup_cons]
    refine ⟨?_, ih (b + 1)⟩
    intro hmem
    rcases List.mem_map.mp hmem with ⟨i, hi, hid⟩
    have := (parseItems_id_bounds (b + 1) rs i hi).1
    omega

theorem parseWorks_id_bounds (b : Nat) (rows : List String) :
    ∀ w ∈ parseWorks b rows, b ≤ w.id ∧ w.id < b + rows.length := by
  induction rows generalizing b with
  | nil => simp [parseWorks]
  | cons r rs ih =>
    intro w hw
    rcases List.mem_cons.mp hw with rfl | h
    · simp
    · have := ih (b + 1) w h
      constructor <;> [omega; (simp only [List.length_cons]; omega)]

theorem parseWorks_ids_nodup (b : Nat) (rows : List String) :
    ((parseWorks b rows).map (·.id)).Nodup := by
  induction rows generalizing b with
  | nil => simp [parseWorks]
  | cons r rs ih =>
    simp only [parseWorks, List.map_cons, List.nodup_cons]
    refine ⟨?_, ih (b + 1)⟩
    intro hmem
    rcases List.mem_map.mp hmem with ⟨w, hw, hid⟩
    have := (parseWorks_id_bounds (b + 1) rs w hw).1
    omega

/-! Resolution round trips: a reference produced by find-by-name, resolved
back by find-by-identifier, depends only on the name column whenever the
identifiers are distinct. -/

theorem vendorNameView_find (s : AppState) (n : String)
    (hnd : (s.vendors.map (·.id)).Nodup) :
    vendorNameView s ((s.vendors.find? (fun v => v.name == n)).map (·.id))
      = if s.vendors.any (fun v => v.name == n) then jsOr n "Unknown" else "Unknown" := by
  unfold vendorNameView
  cases hf : s.vendors.find? (fun v => v.name == n) with
  | none =>
    have hany : s.vendors.any (fun v => v.name == n) = false := by
      rw [List.any_eq_false]
      intro v hv
      exact List.find?_eq_none.mp hf v hv
    have hresolve : s.vendors.find? (fun v => (some v.id : Option Nat) == (none : Option Nat))
        = none := by
      rw [List.find?_eq_none]
      intro v _
      simp
    simp only [Option.map_none']
    rw [hresolve]
    simp [hany, jsOr]
  | some v₀ =>
    have hp := List.find?_some hf
    have hmem : v₀ ∈ s.vendors := List.mem_of_find?_eq_some hf
    have hname : v₀.name = n := by simpa using hp
    have hany : s.vendors.any (fun v => v.name == n) = true :=
      List.any_eq_true.mpr ⟨v₀, hmem, hp⟩
    have hsome : (s.vendors.find? (fun v => (some v.id : Option Nat) == some v₀.id)).isSome := by
      rw [List.find?_isSome]
      exact ⟨v₀, hmem, by simp⟩
    obtain ⟨v₁, hf₁⟩ := Option.isSome_iff_exists.mp hsome
    have hid : v₁.id = v₀.id := by
      have := List.find?_some hf₁
      simpa using this
    have hmem₁ := List.mem_of_find?_eq_some hf₁
    have hv₁ : v₁ = v₀ := List.inj_on_of_nodup_map hnd hmem₁ hmem hid
    simp only [Option.map_some']
    rw [hf₁]
    simp [hv₁, hname, hany]

theorem skuView_find (s : AppState) (n : String)
    (hnd : (s.items.map (·.id)).Nodup) :
    skuView s ((s.items.find? (fun i => i.sku == n)).map (·.id))
      = if s.items.any (fun i => i.sku == n) then jsOr n "Unknown" else "Unknown" := by
  unfold skuView
  cases hf : s.items.find? (fun i => i.sku == n) with
  | none =>
    have hany : s.items.any (fun i => i.sku == n) = false := by
      rw [List.any_eq_false]
      intro i hi
      exact List.find?_eq_none.mp hf i hi
    have hresolve : s.items.find? (fun i => (some i.id : Option Nat) == (none : Option Nat))
        = none := by
      rw [List.find?_eq_none]
      intro i _
      simp
    simp only [Option.map_none']
    rw [hresolve]
    simp [hany, jsOr]
  | some i₀ =>
    have hp := List.find?_some hf
    have hmem : i₀ ∈ s.items := List.mem_of_find?_eq_some hf
    have hname : i₀.sku = n := by simpa using hp
    have hany : s.items.any (fun i => i.sku == n) = true :=
      List.any_eq_true.mpr ⟨i₀, hmem, hp⟩
    have hsome : (s.items.find? (fun i => (some i.id : Option Nat) == some i₀.id)).isSome := by
      rw [List.find?_isSome]
      exact ⟨i₀, hmem, by simp⟩
    obtain ⟨i₁, hf₁⟩ := Option.isSome_iff_exists.mp hsome
    have hid : i₁.id = i₀.id := by
      have := List.find?_some hf₁
      simpa using this
    have hmem₁ := List.mem_of_find?_eq_some hf₁
    have hi₁ : i₁ = i₀ := List.inj_on_of_nodup_map hnd hmem₁ hmem hid
    simp only [Option.map_some']
    rw [hf₁]
    simp [hi₁, hname, hany]

theorem workNameView_find (s : AppState) (n : String)
    (hnd : (s.workTypes.map (·.id)).Nodup) :
    workNameView s ((s.workTypes.find? (fun w => w.name == n)).map (·.id))
      = if s.workTypes.any (fun w => w.name == n) then n else "" := by
  unfold workNameView
  cases hf : s.workTypes.find? (fun w => w.name == n) with
  | none =>
    have hany : s.workTypes.any (fun w => w.name == n) = false := by
      rw [List.any_eq_false]
      intro w hw
      exact List.find?_eq_none.mp hf w hw
    have hresolve : s.workTypes.find? (fun w => (some w.id : Option Nat) == (none : Option Nat))
        = none := by
      rw [List.find?_eq_none]
      intro w _
      simp
    simp only [Option.map_none']
    rw [hresolve]
    simp [hany]
  | some w₀ =>
    have hp := List.find?_some hf
    have hmem : w₀ ∈ s.workTypes := List.mem_of_find?_eq_some hf
    have hname : w₀.name = n := by simpa using hp
    have hany : s.workTypes.any (fun w => w.name == n) = true :=
      List.any_eq_true.mpr ⟨w₀, hmem, hp⟩
    have hsome : (s.workTypes.find? (fun w => (some w.id : Option Nat) == some w₀.id)).isSome := by
      rw [List.find?_isSome]
      exact ⟨w₀, hmem, by simp⟩
    obtain ⟨w₁, hf₁⟩ := Option.isSome_iff_exists.mp hsome
    have hid : w₁.id = w₀.id := by
      have := List.find?_some hf₁
      simpa using this
    have hmem₁ := List.mem_of_find?_eq_some hf₁
    have hw₁ : w₁ = w₀ := List.inj_on_of_nodup_map hnd hmem₁ hmem hid
    simp only [Option.map_some']
    rw [hf₁]
    simp [hw₁, hname, hany]

theorem outChallanView_find (s : AppState) (c : String)
    (hnd : (s.outwardEntries.map (·.id)).Nodup) :
    outChallanView s ((s.outwardEntries.find? (fun o => o.challanNo == c)).map (·.id))
      = if s.outwardEntries.any (fun o => o.challanNo == c) then some c else none := by
  unfold outChallanView
  cases hf : s.outwardEntries.find? (fun o => o.challanNo == c) with
  | none =>
    have hany : s.outwardEntries.any (fun o => o.challanNo == c) = false := by
      rw [List.any_eq_false]
      intro o ho
      exact List.find?_eq_none.mp hf o ho
    have hresolve :
        s.outwardEntries.find? (fun o => (some o.id : Option Nat) == (none : Option Nat))
          = none := by
      rw [List.find?_eq_none]
      intro o _
      simp
    simp only [Option.map_none']
    rw [hresolve]
    simp [hany]
  | some o₀ =>
    have hp := List.find?_some hf
    have hmem : o₀ ∈ s.outwardEntries := List.mem_of_find?_eq_some hf
    have hname : o₀.challanNo = c := by simpa using hp
    have hany : s.outwardEntries.any (fun o => o.challanNo == c) = true :=
      List.any_eq_true.mpr ⟨o₀, hmem, hp⟩
    have hsome :
        (s.outwardEntries.find? (fun o => (some o.id : Option Nat) == some o₀.id)).isSome := by
      rw [List.find?_isSome]
      exact ⟨o₀, hmem, by simp⟩
    obtain ⟨o₁, hf₁⟩ := Option.isSome_iff_exists.mp hsome
    have hid : o₁.id = o₀.id := by
      have := List.find?_some hf₁
      simpa using this
    have hmem₁ := List.mem_of_find?_eq_some hf₁
    have ho₁ : o₁ = o₀ := List.inj_on_of_nodup_map hnd hmem₁ hmem hid
    simp only [Option.map_some']
    rw [hf₁]
    simp [ho₁, hname, hany]

/-! Merge-phase facts -/

theorem mergeOutwardEntry_challanNo (state : AppState) (aV : List Vendor) (aI : List Item)
    (aW : List WorkType) (ts : String) (fid : Nat) (r : OutwardRow) :
    (mergeOutwardEntry state aV aI aW ts fid r).challanNo = r.challanNo := rfl

theorem mergeOutwardEntry_id (state : AppState) (aV : List Vendor) (aI : List Item)
    (aW : List WorkType) (ts : String) (fid : Nat) (r : OutwardRow) :
    (mergeOutwardEntry state aV aI aW ts fid r).id
      = (((state.outwardEntries.find? (fun o => o.challanNo == r.challanNo)).map (·.id)).getD
          fid) := rfl

theorem mergeOutwardEntry_status (state : AppState) (aV : List Vendor) (aI : List Item)
    (aW : List WorkType) (ts : String) (fid : Nat) (r : OutwardRow) :
    (mergeOutwardEntry state aV aI aW ts fid r).status
      = (if (state.outwardEntries.find? (fun o => o.challanNo == r.challanNo)).map (·.status)
            = some Status.COMPLETED then Status.COMPLETED else r.status) := rfl

theorem mergeOutwardRows_map_challan (state : AppState) (aV : List Vendor) (aI : List Item)
    (aW : List WorkType) (ts : String) :
    ∀ (fid : Nat) (rows : List OutwardRow),
      (mergeOutwardRows state aV aI aW ts fid rows).map (·.challanNo)
        = rows.map (·.challanNo) := by
  intro fid rows
  induction rows generalizing fid with
  | nil => rfl
  | cons r rs ih => simp only [mergeOutwardRows, List.map_cons, ih, mergeOutwardEntry_challanNo]

theorem mergeOutwardRows_get? (state : AppState) (aV : List Vendor) (aI : List Item)
    (aW : List WorkType) (ts : String) :
    ∀ (fid k : Nat) (rows : List OutwardRow),
      (mergeOutwardRows state aV aI aW ts fid rows).get? k
        = (rows.get? k).map (fun r => mergeOutwardEntry state aV aI aW ts (fid + k) r) := by
  intro fid k rows
  induction rows generalizing fid k with
  | nil => simp [mergeOutwardRows]
  | cons r rs ih =>
    cases k with
    | zero => simp [mergeOutwardRows]
    | succ k' =>
      have harith : fid + 1 + k' = fid + (k' + 1) := by omega
      simp only [mergeOutwardRows, List.get?_cons_succ, ih (fid + 1) k', harith]

theorem mergeInwardRows_get? (state : AppState) (aV : List Vendor) (aI : List Item)
    (fo : List OutwardEntry) (ts : String) :
    ∀ (fid k : Nat) (rows : List InwardRow),
      (mergeInwardRows state aV aI fo ts fid rows).get? k
        = (rows.get? k).map (fun r => mergeInwardEntry state aV aI fo ts (fid + k) r) := by
  intro fid k rows
  induction rows generalizing fid k with
  | nil => simp [mergeInwardRows]
  | cons r rs ih =>
    cases k with
    | zero => simp [mergeInwardRows]
    | succ k' =>
      have harith : fid + 1 + k' = fid + (k' + 1) := by omega
      simp only [mergeInwardRows, List.get?_cons_succ, ih (fid + 1) k', harith]

theorem mergeOutwardRows_ids_mem (state : AppState) (aV : List Vendor) (aI : List Item)
    (aW : List WorkType) (ts : String) :
    ∀ (fid : Nat) (rows : List OutwardRow) (x : OutwardEntry),
      x ∈ mergeOutwardRows state aV aI aW ts fid rows →
      (∃ r ∈ rows, ∃ e, state.outwardEntries.find? (fun o => o.challanNo == r.challanNo) = some e
          ∧ x.id = e.id)
      ∨ (fid ≤ x.id ∧ x.id < fid + rows.length) := by
  intro fid rows
  induction rows generalizing fid with
  | nil => intro x hx; simp [mergeOutwardRows] at hx
  | cons r rs ih =>
    intro x hx
    rcases List.mem_cons.mp hx with rfl | h
    · cases hfind : state.outwardEntries.find? (fun o => o.challanNo == r.challanNo) with
      | none =>
        right
        have hid : (mergeOutwardEntry state aV aI aW ts fid r).id = fid := by
          rw [mergeOutwardEntry_id, hfind]
          rfl
        rw [hid]
        simp only [List.length_cons]
        omega
      | some e =>
        left
        refine ⟨r, List.mem_cons_self r rs, e, hfind, ?_⟩
        rw [mergeOutwardEntry_id, hfind]
        rfl
    · rcases ih (fid + 1) x h with ⟨r', hr', e, hfind, hid⟩ | ⟨h1, h2⟩
      · exact Or.inl ⟨r', List.mem_cons_of_mem _ hr', e, hfind, hid⟩
      · right
        simp only [List.length_cons]
        omega

theorem mergeOutwardRows_ids_nodup (state : AppState) (aV : List Vendor) (aI : List Item)
    (aW : List WorkType) (ts : String) :
    ∀ (fid : Nat) (rows : List OutwardRow),
      (rows.map (·.challanNo)).Nodup →
      (state.outwardEntries.map (·.id)).Nodup →
      (∀ e ∈ state.outwardEntries, e.id < fid) →
      ((mergeOutwardRows state aV aI aW ts fid rows).map (·.id)).Nodup := by
  intro fid rows
  induction rows generalizing fid with
  | nil => intros; simp [mergeOutwardRows]
  | cons r rs ih =>
    intro hchal hsid hlt
    rw [List.map_cons] at hchal
    obtain ⟨hchalhead, hchaltail⟩ := List.nodup_cons.mp hchal
    simp only [mergeOutwardRows, List.map_cons, List.nodup_cons]
    refine ⟨?_, ih (fid + 1) hchaltail hsid (fun e he => Nat.lt_succ_of_lt (hlt e he))⟩
    intro hmem
    rcases List.mem_map.mp hmem with ⟨x, hx, hxid⟩
    rcases mergeOutwardRows_ids_mem state aV aI aW ts (fid + 1) rs x hx with
      ⟨r', hr', e', hfind', hid'⟩ | ⟨hge, _⟩
    · cases hfindHead : state.outwardEntries.find? (fun o => o.challanNo == r.challanNo) with
      | none =>
        have hhid : (mergeOutwardEntry state aV aI aW ts fid r).id = fid := by
          rw [mergeOutwardEntry_id, hfindHead]
          rfl
        have he'mem := List.mem_of_find?_eq_some hfind'
        have := hlt e' he'mem
        omega
      | some e =>
        have hhid : (mergeOutwardEntry state aV aI aW ts fid r).id = e.id := by
          rw [mergeOutwardEntry_id, hfindHead]
          rfl
        have hemem := List.mem_of_find?_eq_some hfindHead
        have he'mem := List.mem_of_find?_eq_some hfind'
        have hee' : e = e' := by
          apply List.inj_on_of_nodup_map hsid hemem he'mem
          omega
        have hec : e.challanNo = r.challanNo := by
          have := List.find?_some hfindHead
          simpa using this
        have he'c : e'.challanNo = r'.challanNo := by
          have := List.find?_some hfind'
          simpa using this
        apply hchalhead
        rw [← hec, hee', he'c]
        exact List.mem_map.mpr ⟨r', hr', rfl⟩
    · cases hfindHead : state.outwardEntries.find? (fun o => o.challanNo == r.challanNo) with
      | none =>
        have hhid : (mergeOutwardEntry state aV aI aW ts fid r).id = fid := by
          rw [mergeOutwardEntry_id, hfindHead]
          rfl
        omega
      | some e =>
        have hhid : (mergeOutwardEntry state aV aI aW ts fid r).id = e.id := by
          rw [mergeOutwardEntry_id, hfindHead]
          rfl
        have := hlt e (List.mem_of_find?_eq_some hfindHead)
        omega

theorem mergeOutwardRows_find_challan (state : AppState) (aV : List Vendor) (aI : List Item)
    (aW : List WorkType) (ts : String) :
    ∀ (fid : Nat) (rows : List OutwardRow) (r : OutwardRow),
      (rows.map (·.challanNo)).Nodup → r ∈ rows →
      ∃ fid', (mergeOutwardRows state aV aI aW ts fid rows).find?
          (fun o => o.challanNo == r.challanNo)
        = some (mergeOutwardEntry state aV aI aW ts fid' r) := by
  intro fid rows
  induction rows generalizing fid with
  | nil => intro r _ hr; simp at hr
  | cons r₀ rs ih =>
    intro r hchal hr
    rw [List.map_cons] at hchal
    obtain ⟨hhead, htail⟩ := List.nodup_cons.mp hchal
    rcases List.mem_cons.mp hr with rfl | hmem
    · refine ⟨fid, ?_⟩
      simp only [mergeOutwardRows]
      rw [List.find?_cons_of_pos]
      simp [mergeOutwardEntry_challanNo]
    · obtain ⟨fid', hfid'⟩ := ih (fid + 1) r htail hmem
      refine ⟨fid', ?_⟩
      simp only [mergeOutwardRows]
      rw [List.find?_cons_of_neg, hfid']
      simp only [mergeOutwardEntry_challanNo]
      intro hbeq
      apply hhead
      have : r₀.challanNo = r.challanNo := by simpa using hbeq
      rw [this]
      exact List.mem_map.mpr ⟨r, hmem, rfl⟩

/-- The COMPLETED-override is stable: re-merging a row against a state
whose matching entry was itself merged from that row gives the same
status. -/
theorem mergeOutwardEntry_status_through (sOld sNew : AppState)
    (aV aI : List _) (aW : List WorkType) (aV' aI' : List _) (aW' : List WorkType)
    (tsOld tsNew : String) (fOld fNew fFound : Nat) (r : OutwardRow)
    (hfind : sNew.outwardEntries.find? (fun o => o.challanNo == r.challanNo)
        = some (mergeOutwardEntry sOld aV aI aW tsOld fFound r)) :
    (mergeOutwardEntry sNew aV' aI' aW' tsNew fNew r).status
      = (mergeOutwardEntry sOld aV aI aW tsOld fOld r).status := by
  rw [mergeOutwardEntry_status, mergeOutwardEntry_status, hfind, Option.map_some',
    mergeOutwardEntry_status]
  by_cases hm : (sOld.outwardEntries.find? (fun o => o.challanNo == r.challanNo)).map (·.status)
      = some Status.COMPLETED
  · simp [hm]
  · simp only [hm, if_false]
    by_cases hr : r.status = Status.COMPLETED <;> simp [hr]

/-! Synced flags, empty partitions, master contents and identifier
freshness of a merged state -/

theorem allVendorsOf_synced (b : Nat) (store : RemoteStore) (s : AppState) :
    ∀ v ∈ allVendorsOf b store s, v.synced = true := by
  intro v hv
  rcases List.mem_append.mp hv with h | h
  · exact parseVendors_synced _ _ v h
  · rcases List.mem_map.mp h with ⟨v', _, rfl⟩
    rfl

theorem allItemsOf_synced (b : Nat) (store : RemoteStore) (s : AppState) :
    ∀ i ∈ allItemsOf b store s, i.synced = true := by
  intro i hi
  rcases List.mem_append.mp hi with h | h
  · exact parseItems_synced _ _ i h
  · rcases List.mem_map.mp h with ⟨i', _, rfl⟩
    rfl

theorem allWorksOf_synced (b : Nat) (store : RemoteStore) (s : AppState) :
    ∀ w ∈ allWorksOf b store s, w.synced = true := by
  intro w hw
  rcases List.mem_append.mp hw with h | h
  · exact parseWorks_synced _ _ w h
  · rcases List.mem_map.mp h with ⟨w', _, rfl⟩
    rfl

theorem allUsersOf_synced (b : Nat) (store : RemoteStore) (s : AppState) :
    ∀ u ∈ allUsersOf b store s, u.synced = true := by
  intro u hu
  rcases List.mem_append.mp hu with h | h
  · exact parseUsers_synced _ _ u h
  · rcases List.mem_map.mp h with ⟨u', _, rfl⟩
    rfl

theorem unsyncedVendorsOf_all_synced (ex : List Vendor) (s : AppState)
    (h : ∀ v ∈ s.vendors, v.synced = true) : unsyncedVendorsOf ex s = [] := by
  unfold unsyncedVendorsOf
  rw [List.filter_eq_nil]
  intro v hv
  simp [h v hv]

theorem unsyncedItemsOf_all_synced (ex : List Item) (s : AppState)
    (h : ∀ i ∈ s.items, i.synced = true) : unsyncedItemsOf ex s = [] := by
  unfold unsyncedItemsOf
  rw [List.filter_eq_nil]
  intro i hi
  simp [h i hi]

theorem unsyncedWorksOf_all_synced (ex : List WorkType) (s : AppState)
    (h : ∀ w ∈ s.workTypes, w.synced = true) : unsyncedWorksOf ex s = [] := by
  unfold unsyncedWorksOf
  rw [List.filter_eq_nil]
  intro w hw
  simp [h w hw]

theorem unsyncedUsersOf_all_synced (ex : List User) (s : AppState)
    (h : ∀ u ∈ s.users, u.synced = true) : unsyncedUsersOf ex s = [] := by
  unfold unsyncedUsersOf
  rw [List.filter_eq_nil]
  intro u hu
  simp [h u hu]

theorem validOutwardToUploadOf_all_synced (store : RemoteStore) (s : AppState)
    (h : ∀ e ∈ s.outwardEntries, e.synced = true) : validOutwardToUploadOf store s = [] := by
  unfold validOutwardToUploadOf
  rw [List.filter_eq_nil]
  intro e he
  simp [h e he]

theorem validInwardToUploadOf_all_synced (store : RemoteStore) (s : AppState)
    (h : ∀ e ∈ s.inwardEntries, e.synced = true) : validInwardToUploadOf store s = [] := by
  unfold validInwardToUploadOf
  have hfil : s.inwardEntries.filter (fun e => !e.synced) = [] := by
    rw [List.filter_eq_nil]
    intro e he
    simp [h e he]
  rw [hfil]
  rfl

theorem allVendorsOf_content (b : Nat) (store : RemoteStore) (s : AppState) :
    (allVendorsOf b store s).map (fun v => (v.name, v.code))
      = store.vendorRows ++ vendorAppendRows b store s := by
  unfold allVendorsOf vendorAppendRows existingVendorsOf
  rw [List.map_append, parseVendors_map_namecode, List.map_map]
  rfl

theorem allItemsOf_content (b : Nat) (store : RemoteStore) (s : AppState) :
    (allItemsOf b store s).map (fun i => (i.sku, i.description))
      = store.itemRows ++ itemAppendRows b store s := by
  unfold allItemsOf itemAppendRows existingItemsOf
  rw [List.map_append, parseItems_map_skudesc, List.map_map]
  rfl

theorem allWorksOf_content (b : Nat) (store : RemoteStore) (s : AppState) :
    (allWorksOf b store s).map (·.name) = store.workRows ++ workAppendRows b store s := by
  unfold allWorksOf workAppendRows existingWorksOf
  rw [List.map_append, parseWorks_map_name, List.map_map]
  rfl

theorem allUsersOf_content (b : Nat) (store : RemoteStore) (s : AppState) :
    (allUsersOf b store s).map (·.name) = store.userRows ++ userAppendRows b store s := by
  unfold allUsersOf userAppendRows existingUsersOf
  rw [List.map_append, parseUsers_map_name, List.map_map]
  rfl

theorem allVendorsOf_ids_lt (b : Nat) (store : RemoteStore) (s : AppState)
    (h2 : ∀ v ∈ s.vendors, v.id < b) :
    ∀ v ∈ allVendorsOf b store s, v.id < b + mastersCount store := by
  intro v hv
  rcases List.mem_append.mp hv with h | h
  · have := (parseVendors_id_bounds b store.vendorRows v h).2
    unfold mastersCount
    omega
  · rcases List.mem_map.mp h with ⟨v', hv', rfl⟩
    have hmem : v' ∈ s.vendors := by
      unfold unsyncedVendorsOf at hv'
      exact List.mem_of_mem_filter hv'
    have := h2 v' hmem
    show v'.id < b + mastersCount store
    omega

theorem allItemsOf_ids_lt (b : Nat) (store : RemoteStore) (s : AppState)
    (h2 : ∀ i ∈ s.items, i.id < b) :
    ∀ i ∈ allItemsOf b store s, i.id < b + mastersCount store := by
  intro i hi
  rcases List.mem_append.mp hi with h | h
  · have := (parseItems_id_bounds _ store.itemRows i h).2
    unfold mastersCount
    omega
  · rcases List.mem_map.mp h with ⟨i', hi', rfl⟩
    have hmem : i' ∈ s.items := by
      unfold unsyncedItemsOf at hi'
      exact List.mem_of_mem_filter hi'
    have := h2 i' hmem
    show i'.id < b + mastersCount store
    omega

theorem allWorksOf_ids_lt (b : Nat) (store : RemoteStore) (s : AppState)
    (h2 : ∀ w ∈ s.workTypes, w.id < b) :
    ∀ w ∈ allWorksOf b store s, w.id < b + mastersCount store := by
  intro w hw
  rcases List.mem_append.mp hw with h | h
  · have := (parseWorks_id_bounds _ store.workRows w h).2
    unfold mastersCount
    omega
  · rcases List.mem_map.mp h with ⟨w', hw', rfl⟩
    have hmem : w' ∈ s.workTypes := by
      unfold unsyncedWorksOf at hw'
      exact List.mem_of_mem_filter hw'
    have := h2 w' hmem
    show w'.id < b + mastersCount store
    omega

theorem allVendorsOf_ids_nodup (b : Nat) (store : RemoteStore) (s : AppState)
    (h1 : (s.vendors.map (·.id)).Nodup) (h2 : ∀ v ∈ s.vendors, v.id < b) :
    ((allVendorsOf b store s).map (·.id)).Nodup := by
  unfold allVendorsOf
  rw [List.map_append, List.nodup_append]
  refine ⟨parseVendors_ids_nodup b store.vendorRows, ?_, ?_⟩
  · have heq : ((unsyncedVendorsOf (existingVendorsOf b store) s).map
        (fun v => { v with synced := true })).map (·.id)
        = (unsyncedVendorsOf (existingVendorsOf b store) s).map (·.id) := by
      rw [List.map_map]
      rfl
    rw [heq]
    have hsub : List.Sublist ((unsyncedVendorsOf (existingVendorsOf b store) s).map (·.id))
        (s.vendors.map (·.id)) := by
      unfold unsyncedVendorsOf
      exact (List.filter_sublist _).map _
    exact h1.sublist hsub
  · intro x hx hx'
    rcases List.mem_map.mp hx with ⟨v, hv, rfl⟩
    have hge := (parseVendors_id_bounds b store.vendorRows v
      (by simpa [existingVendorsOf] using hv)).1
    rcases List.mem_map.mp hx' with ⟨v', hv', hid⟩
    rcases List.mem_map.mp hv' with ⟨v'', hv'', rfl⟩
    have hmem : v'' ∈ s.vendors := by
      unfold unsyncedVendorsOf at hv''
      exact List.mem_of_mem_filter hv''
    have hlt := h2 v'' hmem
    have hid2 : v''.id = v.id := hid
    omega

theorem allItemsOf_ids_nodup (b : Nat) (store : RemoteStore) (s : AppState)
    (h1 : (s.items.map (·.id)).Nodup) (h2 : ∀ i ∈ s.items, i.id < b) :
    ((allItemsOf b store s).map (·.id)).Nodup := by
  unfold allItemsOf
  rw [List.map_append, List.nodup_append]
  refine ⟨by unfold existingItemsOf; exact parseItems_ids_nodup _ store.itemRows, ?_, ?_⟩
  · have heq : ((unsyncedItemsOf (existingItemsOf b store) s).map
        (fun i => { i with synced := true })).map (·.id)
        = (unsyncedItemsOf (existingItemsOf b store) s).map (·.id) := by
      rw [List.map_map]
      rfl
    rw [heq]
    have hsub : List.Sublist ((unsyncedItemsOf (existingItemsOf b store) s).map (·.id))
        (s.items.map (·.id)) := by
      unfold unsyncedItemsOf
      exact (List.filter_sublist _).map _
    exact h1.sublist hsub
  · intro x hx hx'
    rcases List.mem_map.mp hx with ⟨i, hi, rfl⟩
    have hge := (parseItems_id_bounds _ store.itemRows i
      (by simpa [existingItemsOf] using hi)).1
    rcases List.mem_map.mp hx' with ⟨i', hi', hid⟩
    rcases List.mem_map.mp hi' with ⟨i'', hi'', rfl⟩
    have hmem : i'' ∈ s.items := by
      unfold unsyncedItemsOf at hi''
      exact List.mem_of_mem_filter hi''
    have hlt := h2 i'' hmem
    have hid2 : i''.id = i.id := hid
    omega

theorem allWorksOf_ids_nodup (b : Nat) (store : RemoteStore) (s : AppState)
    (h1 : (s.workTypes.map (·.id)).Nodup) (h2 : ∀ w ∈ s.workTypes, w.id < b) :
    ((allWorksOf b store s).map (·.id)).Nodup := by
  unfold allWorksOf
  rw [List.map_append, List.nodup_append]
  refine ⟨by unfold existingWorksOf; exact parseWorks_ids_nodup _ store.workRows, ?_, ?_⟩
  · have heq : ((unsyncedWorksOf (existingWorksOf b store) s).map
        (fun w => { w with synced := true })).map (·.id)
        = (unsyncedWorksOf (existingWorksOf b store) s).map (·.id) := by
      rw [List.map_map]
      rfl
    rw [heq]
    have hsub : List.Sublist ((unsyncedWorksOf (existingWorksOf b store) s).map (·.id))
        (s.workTypes.map (·.id)) := by
      unfold unsyncedWorksOf
      exact (List.filter_sublist _).map _
    exact h1.sublist hsub
  · intro x hx hx'
    rcases List.mem_map.mp hx with ⟨w, hw, rfl⟩
    have hge := (parseWorks_id_bounds _ store.workRows w
      (by simpa [existingWorksOf] using hw)).1
    rcases List.mem_map.mp hx' with ⟨w', hw', hid⟩
    rcases List.mem_map.mp hw' with ⟨w'', hw'', rfl⟩
    have hmem : w'' ∈ s.workTypes := by
      unfold unsyncedWorksOf at hw''
      exact List.mem_of_mem_filter hw''
    have hlt := h2 w'' hmem
    have hid2 : w''.id = w.id := hid
    omega

/-! Pointwise content equality of re-merged entries -/

theorem any_beq_of_map_eq {α₁ α₂ : Type} (f₁ : α₁ → String) (f₂ : α₂ → String) :
    ∀ {l₁ : List α₁} {l₂ : List α₂}, l₁.map f₁ = l₂.map f₂ →
      ∀ n, l₁.any (fun v => f₁ v == n) = l₂.any (fun v => f₂ v == n) := by
  intro l₁
  induction l₁ with
  | nil =>
    intro l₂ h n
    cases l₂ with
    | nil => rfl
    | cons b bs => simp at h
  | cons a as ih =>
    intro l₂ h n
    cases l₂ with
    | nil => simp at h
    | cons b bs =>
      simp only [List.map_cons, List.cons.injEq] at h
      obtain ⟨h1, h2⟩ := h
      simp only [List.any_cons, h1, ih h2 n]

theorem outwardContent_merge_eq (T₂ T₃ s₂ s₃ : AppState) (ts₂ ts₃ : String) (f₂ f₃ : Nat)
    (r : OutwardRow)
    (hdate : (isoOf r.date).isSome = true)
    (hnd₂v : (T₂.vendors.map (·.id)).Nodup) (hnd₃v : (T₃.vendors.map (·.id)).Nodup)
    (hnd₂i : (T₂.items.map (·.id)).Nodup) (hnd₃i : (T₃.items.map (·.id)).Nodup)
    (hnd₂w : (T₂.workTypes.map (·.id)).Nodup) (hnd₃w : (T₃.workTypes.map (·.id)).Nodup)
    (hvn : T₂.vendors.map (·.name) = T₃.vendors.map (·.name))
    (hin : T₂.items.map (·.sku) = T₃.items.map (·.sku))
    (hwn : T₂.workTypes.map (·.name) = T₃.workTypes.map (·.name))
    (hst : (mergeOutwardEntry s₃ T₃.vendors T₃.items T₃.workTypes ts₃ f₃ r).status
            = (mergeOutwardEntry s₂ T₂.vendors T₂.items T₂.workTypes ts₂ f₂ r).status) :
    outwardContentOf T₃ (mergeOutwardEntry s₃ T₃.vendors T₃.items T₃.workTypes ts₃ f₃ r)
      = outwardContentOf T₂ (mergeOutwardEntry s₂ T₂.vendors T₂.items T₂.workTypes ts₂ f₂ r) := by
  obtain ⟨d, hd⟩ := Option.isSome_iff_exists.mp hdate
  have hdate3 : parseDate ts₃ r.date = parseDate ts₂ r.date := by
    unfold parseDate
    rw [hd]
    rfl
  have hv : vendorNameView T₃ ((T₃.vendors.find? (fun v => v.name == r.vendorName)).map (·.id))
      = vendorNameView T₂ ((T₂.vendors.find? (fun v => v.name == r.vendorName)).map (·.id)) := by
    rw [vendorNameView_find T₃ r.vendorName hnd₃v, vendorNameView_find T₂ r.vendorName hnd₂v,
      any_beq_of_map_eq (fun v : Vendor => v.name) (fun v : Vendor => v.name) hvn r.vendorName]
  have hsk : skuView T₃ ((T₃.items.find? (fun i => i.sku == r.sku)).map (·.id))
      = skuView T₂ ((T₂.items.find? (fun i => i.sku == r.sku)).map (·.id)) := by
    rw [skuView_find T₃ r.sku hnd₃i, skuView_find T₂ r.sku hnd₂i,
      any_beq_of_map_eq (fun i : Item => i.sku) (fun i : Item => i.sku) hin r.sku]
  have hwk : workNameView T₃ ((T₃.workTypes.find? (fun w => w.name == r.workName)).map (·.id))
      = workNameView T₂ ((T₂.workTypes.find? (fun w => w.name == r.workName)).map (·.id)) := by
    rw [workNameView_find T₃ r.workName hnd₃w, workNameView_find T₂ r.workName hnd₂w,
      any_beq_of_map_eq (fun w : WorkType => w.name) (fun w : WorkType => w.name) hwn r.workName]
  have hdateE : (mergeOutwardEntry s₃ T₃.vendors T₃.items T₃.workTypes ts₃ f₃ r).date
      = (mergeOutwardEntry s₂ T₂.vendors T₂.items T₂.workTypes ts₂ f₂ r).date := hdate3
  have hvE : vendorNameView T₃ (mergeOutwardEntry s₃ T₃.vendors T₃.items T₃.workTypes ts₃ f₃
        r).vendorId
      = vendorNameView T₂ (mergeOutwardEntry s₂ T₂.vendors T₂.items T₂.workTypes ts₂ f₂
        r).vendorId := hv
  have hskE : skuView T₃ (mergeOutwardEntry s₃ T₃.vendors T₃.items T₃.workTypes ts₃ f₃ r).skuId
      = skuView T₂ (mergeOutwardEntry s₂ T₂.vendors T₂.items T₂.workTypes ts₂ f₂ r).skuId := hsk
  have hwkE : workNameView T₃ (mergeOutwardEntry s₃ T₃.vendors T₃.items T₃.workTypes ts₃ f₃
        r).workId
      = workNameView T₂ (mergeOutwardEntry s₂ T₂.vendors T₂.items T₂.workTypes ts₂ f₂
        r).workId := hwk
  unfold outwardContentOf
  simp only [Prod.mk.injEq]
  exact ⟨hdateE, hvE, rfl, hskE, rfl, rfl, rfl, rfl, rfl, rfl, rfl, rfl, hwkE, rfl, hst, rfl⟩

theorem inwardContent_merge_eq (T₂ T₃ s₂ s₃ : AppState) (ts₂ ts₃ : String) (f₂ f₃ : Nat)
    (r : InwardRow)
    (hdate : (isoOf r.date).isSome = true)
    (hnd₂v : (T₂.vendors.map (·.id)).Nodup) (hnd₃v : (T₃.vendors.map (·.id)).Nodup)
    (hnd₂i : (T₂.items.map (·.id)).Nodup) (hnd₃i : (T₃.items.map (·.id)).Nodup)
    (hnd₂o : (T₂.outwardEntries.map (·.id)).Nodup)
    (hnd₃o : (T₃.outwardEntries.map (·.id)).Nodup)
    (hvn : T₂.vendors.map (·.name) = T₃.vendors.map (·.name))
    (hin : T₂.items.map (·.sku) = T₃.items.map (·.sku))
    (hoc : T₂.outwardEntries.map (·.challanNo) = T₃.outwardEntries.map (·.challanNo)) :
    inwardContentOf T₃ (mergeInwardEntry s₃ T₃.vendors T₃.items T₃.outwardEntries ts₃ f₃ r)
      = inwardContentOf T₂ (mergeInwardEntry s₂ T₂.vendors T₂.items T₂.outwardEntries ts₂ f₂
          r) := by
  obtain ⟨d, hd⟩ := Option.isSome_iff_exists.mp hdate
  have hdate3 : parseDate ts₃ r.date = parseDate ts₂ r.date := by
    unfold parseDate
    rw [hd]
    rfl
  have hv : vendorNameView T₃ ((T₃.vendors.find? (fun v => v.name == r.vendorName)).map (·.id))
      = vendorNameView T₂ ((T₂.vendors.find? (fun v => v.name == r.vendorName)).map (·.id)) := by
    rw [vendorNameView_find T₃ r.vendorName hnd₃v, vendorNameView_find T₂ r.vendorName hnd₂v,
      any_beq_of_map_eq (fun v : Vendor => v.name) (fun v : Vendor => v.name) hvn r.vendorName]
  have hsk : skuView T₃ ((T₃.items.find? (fun i => i.sku == r.sku)).map (·.id))
      = skuView T₂ ((T₂.items.find? (fun i => i.sku == r.sku)).map (·.id)) := by
    rw [skuView_find T₃ r.sku hnd₃i, skuView_find T₂ r.sku hnd₂i,
      any_beq_of_map_eq (fun i : Item => i.sku) (fun i : Item => i.sku) hin r.sku]
  have hch : outChallanView T₃
        ((T₃.outwardEntries.find? (fun o => o.challanNo == r.outwardChallanNo)).map (·.id))
      = outChallanView T₂
        ((T₂.outwardEntries.find? (fun o => o.challanNo == r.outwardChallanNo)).map (·.id)) := by
    rw [outChallanView_find T₃ r.outwardChallanNo hnd₃o,
      outChallanView_find T₂ r.outwardChallanNo hnd₂o,
      any_beq_of_map_eq (fun o : OutwardEntry => o.challanNo)
        (fun o : OutwardEntry => o.challanNo) hoc r.outwardChallanNo]
  have hdateE : (mergeInwardEntry s₃ T₃.vendors T₃.items T₃.outwardEntries ts₃ f₃ r).date
      = (mergeInwardEntry s₂ T₂.vendors T₂.items T₂.outwardEntries ts₂ f₂ r).date := hdate3
  have hvE : vendorNameView T₃ (mergeInwardEntry s₃ T₃.vendors T₃.items T₃.outwardEntries ts₃ f₃
        r).vendorId
      = vendorNameView T₂ (mergeInwardEntry s₂ T₂.vendors T₂.items T₂.outwardEntries ts₂ f₂
        r).vendorId := hv
  have hskE : skuView T₃ (mergeInwardEntry s₃ T₃.vendors T₃.items T₃.outwardEntries ts₃ f₃
        r).skuId
      = skuView T₂ (mergeInwardEntry s₂ T₂.vendors T₂.items T₂.outwardEntries ts₂ f₂
        r).skuId := hsk
  have hchE : outChallanView T₃ (mergeInwardEntry s₃ T₃.vendors T₃.items T₃.outwardEntries ts₃ f₃
        r).outwardChallanId
      = outChallanView T₂ (mergeInwardEntry s₂ T₂.vendors T₂.items T₂.outwardEntries ts₂ f₂
        r).outwardChallanId := hch
  unfold inwardContentOf
  simp only [Prod.mk.injEq]
  exact ⟨hdateE, hvE, hchE, hskE, rfl, rfl, rfl, rfl, rfl, rfl, rfl, rfl, rfl, rfl⟩

/-- C8: two consecutive sync cycles with no new local entries and no
remote changes are idempotent.  Given a successful first cycle, the second
cycle — run on the first cycle's merged state against the first cycle's
final store — finds every upload partition empty, appends zero remote rows
(the store is returned unchanged), succeeds, and returns a merged state
with the same observable content as the first cycle's: the same master
rows, and entry-for-entry the same dates, resolved vendor names, challan
numbers, resolved SKUs, quantities, weights, audit fields, photo urls,
resolved work names, remarks, statuses and synced flags.  The hypotheses
state the scenario's well-formedness: locally created identifiers are
distinct and below the fresh-identifier counters, remote challan numbers
are globally unique (the spec's own invariant), and remote date cells are
parseable (they are, for rows this code writes). -/
theorem c8_sync_idempotent
    (env : RemoteEnv) (state₁ : AppState) (ts₁ ts₂ : String) (base₁ base₂ : Nat)
    (u₂ : String → String → Option String) (f₂ : AppendTarget → Bool)
    (h0 : (syncDataToSheets env state₁ ts₁ base₁).success = true)
    (hv1 : (state₁.vendors.map (·.id)).Nodup) (hv2 : ∀ v ∈ state₁.vendors, v.id < base₁)
    (hi1 : (state₁.items.map (·.id)).Nodup) (hi2 : ∀ i ∈ state₁.items, i.id < base₁)
    (hw1 : (state₁.workTypes.map (·.id)).Nodup) (hw2 : ∀ w ∈ state₁.workTypes, w.id < base₁)
    (ho1 : (state₁.outwardEntries.map (·.id)).Nodup)
    (ho2 : ∀ e ∈ state₁.outwardEntries, e.id < base₁)
    (hchal : ((storeAfterSuccess env state₁ ts₁ base₁).outwardRows.map (·.challanNo)).Nodup)
    (hdo : ∀ r ∈ (storeAfterSuccess env state₁ ts₁ base₁).outwardRows,
        (isoOf r.date).isSome = true)
    (hdi : ∀ r ∈ (storeAfterSuccess env state₁ ts₁ base₁).inwardRows,
        (isoOf r.date).isSome = true)
    (hbase : base₁ + mastersCount env.store
        + (storeAfterSuccess env state₁ ts₁ base₁).outwardRows.length ≤ base₂) :
    unsyncedVendorsOf (existingVendorsOf base₂ (storeAfterSuccess env state₁ ts₁ base₁))
        (mergedStateOf env state₁ ts₁ base₁) = []
    ∧ unsyncedItemsOf (existingItemsOf base₂ (storeAfterSuccess env state₁ ts₁ base₁))
        (mergedStateOf env state₁ ts₁ base₁) = []
    ∧ unsyncedWorksOf (existingWorksOf base₂ (storeAfterSuccess env state₁ ts₁ base₁))
        (mergedStateOf env state₁ ts₁ base₁) = []
    ∧ unsyncedUsersOf (existingUsersOf base₂ (storeAfterSuccess env state₁ ts₁ base₁))
        (mergedStateOf env state₁ ts₁ base₁) = []
    ∧ validOutwardToUploadOf (storeAfterSuccess env state₁ ts₁ base₁)
        (mergedStateOf env state₁ ts₁ base₁) = []
    ∧ validInwardToUploadOf (storeAfterSuccess env state₁ ts₁ base₁)
        (mergedStateOf env state₁ ts₁ base₁) = []
    ∧ (syncDataToSheets ⟨storeAfterSuccess env state₁ ts₁ base₁, env.hasToken, u₂, f₂⟩
        (mergedStateOf env state₁ ts₁ base₁) ts₂ base₂).finalStore
        = storeAfterSuccess env state₁ ts₁ base₁
    ∧ (syncDataToSheets ⟨storeAfterSuccess env state₁ ts₁ base₁, env.hasToken, u₂, f₂⟩
        (mergedStateOf env state₁ ts₁ base₁) ts₂ base₂).success = true
    ∧ (∀ st₃, (syncDataToSheets ⟨storeAfterSuccess env state₁ ts₁ base₁, env.hasToken, u₂, f₂⟩
        (mergedStateOf env state₁ ts₁ base₁) ts₂ base₂).updated = some st₃ →
        stateContent st₃ = stateContent (mergedStateOf env state₁ ts₁ base₁)) := by
  have hTok : env.hasToken = true := by
    by_cases hTok : env.hasToken = false
    · exfalso
      unfold syncDataToSheets at h0
      rw [if_pos hTok] at h0
      simp at h0
    · revert hTok
      cases env.hasToken <;> simp
  -- abbreviations
  have hS₂rows : (storeAfterSuccess env state₁ ts₁ base₁).outwardRows
      = env.store.outwardRows ++ newOutwardRowsOf env state₁ ts₁ := rfl
  -- synced flags of the first cycle's merged state
  have hsyV : ∀ v ∈ (mergedStateOf env state₁ ts₁ base₁).vendors, v.synced = true :=
    allVendorsOf_synced base₁ env.store state₁
  have hsyI : ∀ i ∈ (mergedStateOf env state₁ ts₁ base₁).items, i.synced = true :=
    allItemsOf_synced base₁ env.store state₁
  have hsyW : ∀ w ∈ (mergedStateOf env state₁ ts₁ base₁).workTypes, w.synced = true :=
    allWorksOf_synced base₁ env.store state₁
  have hsyU : ∀ u ∈ (mergedStateOf env state₁ ts₁ base₁).users, u.synced = true :=
    allUsersOf_synced base₁ env.store state₁
  have hsyO : ∀ e ∈ (mergedStateOf env state₁ ts₁ base₁).outwardEntries, e.synced = true :=
    fun e he => mergeOutwardRows_synced state₁ _ _ _ ts₁ _ _ e he
  have hsyN : ∀ e ∈ (mergedStateOf env state₁ ts₁ base₁).inwardEntries, e.synced = true :=
    fun e he => mergeInwardRows_synced state₁ _ _ _ ts₁ _ _ e he
  -- empty partitions of the second cycle
  have he1 : unsyncedVendorsOf (existingVendorsOf base₂ (storeAfterSuccess env state₁ ts₁ base₁))
      (mergedStateOf env state₁ ts₁ base₁) = [] :=
    unsyncedVendorsOf_all_synced _ _ hsyV
  have he2 : unsyncedItemsOf (existingItemsOf base₂ (storeAfterSuccess env state₁ ts₁ base₁))
      (mergedStateOf env state₁ ts₁ base₁) = [] :=
    unsyncedItemsOf_all_synced _ _ hsyI
  have he3 : unsyncedWorksOf (existingWorksOf base₂ (storeAfterSuccess env state₁ ts₁ base₁))
      (mergedStateOf env state₁ ts₁ base₁) = [] :=
    unsyncedWorksOf_all_synced _ _ hsyW
  have he4 : unsyncedUsersOf (existingUsersOf base₂ (storeAfterSuccess env state₁ ts₁ base₁))
      (mergedStateOf env state₁ ts₁ base₁) = [] :=
    unsyncedUsersOf_all_synced _ _ hsyU
  have he5 : validOutwardToUploadOf (storeAfterSuccess env state₁ ts₁ base₁)
      (mergedStateOf env state₁ ts₁ base₁) = [] :=
    validOutwardToUploadOf_all_synced _ _ hsyO
  have he6 : validInwardToUploadOf (storeAfterSuccess env state₁ ts₁ base₁)
      (mergedStateOf env state₁ ts₁ base₁) = [] :=
    validInwardToUploadOf_all_synced _ _ hsyN
  -- empty append batches of the second cycle
  have ha1 : vendorAppendRows base₂ (storeAfterSuccess env state₁ ts₁ base₁)
      (mergedStateOf env state₁ ts₁ base₁) = [] := by
    unfold vendorAppendRows
    rw [he1]
    rfl
  have ha2 : itemAppendRows base₂ (storeAfterSuccess env state₁ ts₁ base₁)
      (mergedStateOf env state₁ ts₁ base₁) = [] := by
    unfold itemAppendRows
    rw [he2]
    rfl
  have ha3 : workAppendRows base₂ (storeAfterSuccess env state₁ ts₁ base₁)
      (mergedStateOf env state₁ ts₁ base₁) = [] := by
    unfold workAppendRows
    rw [he3]
    rfl
  have ha4 : userAppendRows base₂ (storeAfterSuccess env state₁ ts₁ base₁)
      (mergedStateOf env state₁ ts₁ base₁) = [] := by
    unfold userAppendRows
    rw [he4]
    rfl
  have ha5 : newOutwardRowsOf ⟨storeAfterSuccess env state₁ ts₁ base₁, env.hasToken, u₂, f₂⟩
      (mergedStateOf env state₁ ts₁ base₁) ts₂ = [] := by
    unfold newOutwardRowsOf
    show (validOutwardToUploadOf (storeAfterSuccess env state₁ ts₁ base₁)
      (mergedStateOf env state₁ ts₁ base₁)).map _ = []
    rw [he5]
    rfl
  have ha6 : newInwardRowsOf ⟨storeAfterSuccess env state₁ ts₁ base₁, env.hasToken, u₂, f₂⟩
      (mergedStateOf env state₁ ts₁ base₁) ts₂ = [] := by
    unfold newInwardRowsOf
    show (validInwardToUploadOf (storeAfterSuccess env state₁ ts₁ base₁)
      (mergedStateOf env state₁ ts₁ base₁)).map _ = []
    rw [he6]
    rfl
  -- the second cycle's outcome
  have hsync2 : syncDataToSheets ⟨storeAfterSuccess env state₁ ts₁ base₁, env.hasToken, u₂, f₂⟩
      (mergedStateOf env state₁ ts₁ base₁) ts₂ base₂
      = ⟨storeAfterSuccess env state₁ ts₁ base₁,
          some (mergedStateOf ⟨storeAfterSuccess env state₁ ts₁ base₁, env.hasToken, u₂, f₂⟩
            (mergedStateOf env state₁ ts₁ base₁) ts₂ base₂),
          true, "Sync Complete: " ++ ts₂⟩ := by
    unfold syncDataToSheets
    rw [if_neg (by simp [hTok])]
    dsimp only
    rw [ha1, ha2, ha3, ha4, ha5, ha6]
    rfl
  refine ⟨he1, he2, he3, he4, he5, he6, by rw [hsync2], by rw [hsync2], ?_⟩
  intro st₃ hst₃
  rw [hsync2] at hst₃
  have hst₃' : mergedStateOf ⟨storeAfterSuccess env state₁ ts₁ base₁, env.hasToken, u₂, f₂⟩
      (mergedStateOf env state₁ ts₁ base₁) ts₂ base₂ = st₃ := by
    simpa using hst₃
  subst hst₃'
  set S := storeAfterSuccess env state₁ ts₁ base₁ with hS
  set st₂ := mergedStateOf env state₁ ts₁ base₁ with hst₂d
  set env₂ := (⟨S, env.hasToken, u₂, f₂⟩ : RemoteEnv) with henv₂
  set st₃ := mergedStateOf env₂ st₂ ts₂ base₂ with hst₃d
  -- master contents
  have hVc : st₃.vendors.map (fun v => (v.name, v.code))
      = st₂.vendors.map (fun v => (v.name, v.code)) := by
    have h3 := allVendorsOf_content base₂ S st₂
    rw [ha1, List.append_nil] at h3
    have h2 := allVendorsOf_content base₁ env.store state₁
    calc st₃.vendors.map (fun v => (v.name, v.code)) = S.vendorRows := h3
      _ = env.store.vendorRows ++ vendorAppendRows base₁ env.store state₁ := rfl
      _ = st₂.vendors.map (fun v => (v.name, v.code)) := h2.symm
  have hIc : st₃.items.map (fun i => (i.sku, i.description))
      = st₂.items.map (fun i => (i.sku, i.description)) := by
    have h3 := allItemsOf_content base₂ S st₂
    rw [ha2, List.append_nil] at h3
    have h2 := allItemsOf_content base₁ env.store state₁
    calc st₃.items.map (fun i => (i.sku, i.description)) = S.itemRows := h3
      _ = env.store.itemRows ++ itemAppendRows base₁ env.store state₁ := rfl
      _ = st₂.items.map (fun i => (i.sku, i.description)) := h2.symm
  have hWc : st₃.workTypes.map (·.name) = st₂.workTypes.map (·.name) := by
    have h3 := allWorksOf_content base₂ S st₂
    rw [ha3, List.append_nil] at h3
    have h2 := allWorksOf_content base₁ env.store state₁
    calc st₃.workTypes.map (·.name) = S.workRows := h3
      _ = env.store.workRows ++ workAppendRows base₁ env.store state₁ := rfl
      _ = st₂.workTypes.map (·.name) := h2.symm
  have hUc : st₃.users.map (·.name) = st₂.users.map (·.name) := by
    have h3 := allUsersOf_content base₂ S st₂
    rw [ha4, List.append_nil] at h3
    have h2 := allUsersOf_content base₁ env.store state₁
    calc st₃.users.map (·.name) = S.userRows := h3
      _ = env.store.userRows ++ userAppendRows base₁ env.store state₁ := rfl
      _ = st₂.users.map (·.name) := h2.symm
  -- name columns
  have hvn : st₂.vendors.map (·.name) = st₃.vendors.map (·.name) := by
    have h := congrArg (List.map Prod.fst) hVc
    rw [List.map_map, List.map_map] at h
    exact h.symm
  have hin : st₂.items.map (·.sku) = st₃.items.map (·.sku) := by
    have h := congrArg (List.map Prod.fst) hIc
    rw [List.map_map, List.map_map] at h
    exact h.symm
  have hwn : st₂.workTypes.map (·.name) = st₃.workTypes.map (·.name) := hWc.symm
  -- identifier distinctness
  have hnd₂v : (st₂.vendors.map (·.id)).Nodup :=
    allVendorsOf_ids_nodup base₁ env.store state₁ hv1 hv2
  have hlt₂v : ∀ v ∈ st₂.vendors, v.id < base₂ := by
    intro v hv
    have h := allVendorsOf_ids_lt base₁ env.store state₁ hv2 v hv
    omega
  have hnd₃v : (st₃.vendors.map (·.id)).Nodup :=
    allVendorsOf_ids_nodup base₂ S st₂ hnd₂v hlt₂v
  have hnd₂i : (st₂.items.map (·.id)).Nodup :=
    allItemsOf_ids_nodup base₁ env.store state₁ hi1 hi2
  have hlt₂i : ∀ i ∈ st₂.items, i.id < base₂ := by
    intro i hi
    have h := allItemsOf_ids_lt base₁ env.store state₁ hi2 i hi
    omega
  have hnd₃i : (st₃.items.map (·.id)).Nodup :=
    allItemsOf_ids_nodup base₂ S st₂ hnd₂i hlt₂i
  have hnd₂w : (st₂.workTypes.map (·.id)).Nodup :=
    allWorksOf_ids_nodup base₁ env.store state₁ hw1 hw2
  have hlt₂w : ∀ w ∈ st₂.workTypes, w.id < base₂ := by
    intro w hw
    have h := allWorksOf_ids_lt base₁ env.store state₁ hw2 w hw
    omega
  have hnd₃w : (st₃.workTypes.map (·.id)).Nodup :=
    allWorksOf_ids_nodup base₂ S st₂ hnd₂w hlt₂w
  -- outward identifiers
  have hlt₁o : ∀ e ∈ state₁.outwardEntries, e.id < base₁ + mastersCount env.store :=
    fun e he => lt_of_lt_of_le (ho2 e he) (Nat.le_add_right _ _)
  have hnd₂o : (st₂.outwardEntries.map (·.id)).Nodup :=
    mergeOutwardRows_ids_nodup state₁ (allVendorsOf base₁ env.store state₁)
      (allItemsOf base₁ env.store state₁) (allWorksOf base₁ env.store state₁) ts₁
      (base₁ + mastersCount env.store) S.outwardRows hchal ho1 hlt₁o
  have hbound₂o : ∀ e ∈ st₂.outwardEntries, e.id < base₂ := by
    intro e he
    have hmem : e ∈ mergeOutwardRows state₁ (allVendorsOf base₁ env.store state₁)
        (allItemsOf base₁ env.store state₁) (allWorksOf base₁ env.store state₁) ts₁
        (base₁ + mastersCount env.store) S.outwardRows := he
    rcases mergeOutwardRows_ids_mem state₁ (allVendorsOf base₁ env.store state₁)
        (allItemsOf base₁ env.store state₁) (allWorksOf base₁ env.store state₁) ts₁
        (base₁ + mastersCount env.store) S.outwardRows e hmem with
      ⟨r, hr, e', hfind, hide⟩ | ⟨hge, hlt⟩
    · have := ho2 e' (List.mem_of_find?_eq_some hfind)
      omega
    · omega
  have hlt₃o : ∀ e ∈ st₂.outwardEntries, e.id < base₂ + mastersCount S :=
    fun e he => lt_of_lt_of_le (hbound₂o e he) (Nat.le_add_right _ _)
  have hFO₃ : st₃.outwardEntries
      = mergeOutwardRows st₂ (allVendorsOf base₂ S st₂) (allItemsOf base₂ S st₂)
          (allWorksOf base₂ S st₂) ts₂ (base₂ + mastersCount S) S.outwardRows := by
    show finalOutwardOf env₂ st₂ ts₂ base₂ = _
    unfold finalOutwardOf
    rw [ha5, List.append_nil]
  have hnd₃o : (st₃.outwardEntries.map (·.id)).Nodup := by
    rw [hFO₃]
    exact mergeOutwardRows_ids_nodup st₂ (allVendorsOf base₂ S st₂) (allItemsOf base₂ S st₂)
      (allWorksOf base₂ S st₂) ts₂ (base₂ + mastersCount S) S.outwardRows hchal hnd₂o hlt₃o
  -- challan columns
  have hocl : st₂.outwardEntries.map (·.challanNo) = st₃.outwardEntries.map (·.challanNo) := by
    have h₂ : st₂.outwardEntries.map (·.challanNo) = S.outwardRows.map (·.challanNo) :=
      mergeOutwardRows_map_challan state₁ (allVendorsOf base₁ env.store state₁)
        (allItemsOf base₁ env.store state₁) (allWorksOf base₁ env.store state₁) ts₁
        (base₁ + mastersCount env.store) S.outwardRows
    have h₃ : st₃.outwardEntries.map (·.challanNo) = S.outwardRows.map (·.challanNo) := by
      rw [hFO₃]
      exact mergeOutwardRows_map_challan st₂ (allVendorsOf base₂ S st₂)
        (allItemsOf base₂ S st₂) (allWorksOf base₂ S st₂) ts₂ (base₂ + mastersCount S)
        S.outwardRows
    rw [h₂, h₃]
  -- outward content
  have hOut : st₃.outwardEntries.map (outwardContentOf st₃)
      = st₂.outwardEntries.map (outwardContentOf st₂) := by
    apply List.ext
    intro k
    rw [List.get?_map, List.get?_map]
    have hg₃ : st₃.outwardEntries.get? k
        = (S.outwardRows.get? k).map (fun r => mergeOutwardEntry st₂ (allVendorsOf base₂ S st₂)
            (allItemsOf base₂ S st₂) (allWorksOf base₂ S st₂) ts₂
            (base₂ + mastersCount S + k) r) := by
      rw [hFO₃]
      exact mergeOutwardRows_get? st₂ (allVendorsOf base₂ S st₂) (allItemsOf base₂ S st₂)
        (allWorksOf base₂ S st₂) ts₂ (base₂ + mastersCount S) k S.outwardRows
    have hg₂ : st₂.outwardEntries.get? k
        = (S.outwardRows.get? k).map (fun r => mergeOutwardEntry state₁
            (allVendorsOf base₁ env.store state₁) (allItemsOf base₁ env.store state₁)
            (allWorksOf base₁ env.store state₁) ts₁ (base₁ + mastersCount env.store + k) r) :=
      mergeOutwardRows_get? state₁ (allVendorsOf base₁ env.store state₁)
        (allItemsOf base₁ env.store state₁) (allWorksOf base₁ env.store state₁) ts₁
        (base₁ + mastersCount env.store) k S.outwardRows
    rw [hg₃, hg₂]
    cases hk : S.outwardRows.get? k with
    | none => rfl
    | some r =>
      simp only [Option.map_some']
      have hrmem : r ∈ S.outwardRows := List.get?_mem hk
      obtain ⟨fid', hfind'⟩ := mergeOutwardRows_find_challan state₁
        (allVendorsOf base₁ env.store state₁) (allItemsOf base₁ env.store state₁)
        (allWorksOf base₁ env.store state₁) ts₁ (base₁ + mastersCount env.store)
        S.outwardRows r hchal hrmem
      have hst : (mergeOutwardEntry st₂ (allVendorsOf base₂ S st₂) (allItemsOf base₂ S st₂)
            (allWorksOf base₂ S st₂) ts₂ (base₂ + mastersCount S + k) r).status
          = (mergeOutwardEntry state₁ (allVendorsOf base₁ env.store state₁)
            (allItemsOf base₁ env.store state₁) (allWorksOf base₁ env.store state₁) ts₁
            (base₁ + mastersCount env.store + k) r).status :=
        mergeOutwardEntry_status_through state₁ st₂ (allVendorsOf base₁ env.store state₁)
          (allItemsOf base₁ env.store state₁) (allWorksOf base₁ env.store state₁)
          (allVendorsOf base₂ S st₂) (allItemsOf base₂ S st₂) (allWorksOf base₂ S st₂)
          ts₁ ts₂ (base₁ + mastersCount env.store + k) (base₂ + mastersCount S + k) fid' r
          hfind'
      exact congrArg some (outwardContent_merge_eq st₂ st₃ state₁ st₂ ts₁ ts₂
        (base₁ + mastersCount env.store + k) (base₂ + mastersCount S + k) r
        (hdo r hrmem) hnd₂v hnd₃v hnd₂i hnd₃i hnd₂w hnd₃w hvn hin hwn hst)
  -- inward content
  have hFI₂ : st₂.inwardEntries
      = mergeInwardRows state₁ (allVendorsOf base₁ env.store state₁)
          (allItemsOf base₁ env.store state₁) (finalOutwardOf env state₁ ts₁ base₁) ts₁
          (base₁ + mastersCount env.store
            + (env.store.outwardRows ++ newOutwardRowsOf env state₁ ts₁).length)
          S.inwardRows := rfl
  have hFI₃ : st₃.inwardEntries
      = mergeInwardRows st₂ (allVendorsOf base₂ S st₂) (allItemsOf base₂ S st₂)
          (finalOutwardOf env₂ st₂ ts₂ base₂) ts₂
          (base₂ + mastersCount S
            + (S.outwardRows ++ newOutwardRowsOf env₂ st₂ ts₂).length)
          S.inwardRows := by
    show finalInwardOf env₂ st₂ ts₂ base₂ = _
    unfold finalInwardOf
    rw [ha6, List.append_nil]
  have hIn : st₃.inwardEntries.map (inwardContentOf st₃)
      = st₂.inwardEntries.map (inwardContentOf st₂) := by
    apply List.ext
    intro k
    rw [List.get?_map, List.get?_map, hFI₃, hFI₂, mergeInwardRows_get?, mergeInwardRows_get?]
    cases hk : S.inwardRows.get? k with
    | none => rfl
    | some r =>
      simp only [Option.map_some']
      have hrmem : r ∈ S.inwardRows := List.get?_mem hk
      exact congrArg some (inwardContent_merge_eq st₂ st₃ state₁ st₂ ts₁ ts₂
        (base₁ + mastersCount env.store
          + (env.store.outwardRows ++ newOutwardRowsOf env state₁ ts₁).length + k)
        (base₂ + mastersCount S + (S.outwardRows ++ newOutwardRowsOf env₂ st₂ ts₂).length + k)
        r (hdi r hrmem) hnd₂v hnd₃v hnd₂i hnd₃i hnd₂o hnd₃o hvn hin hocl)
  show stateContent st₃ = stateContent st₂
  unfold stateContent
  simp only [Prod.mk.injEq]
  exact ⟨hVc, hIc, hWc, hUc, hOut, hIn⟩

/-- Concrete idempotence scenario: one unsynced outward candidate. -/
def oW8 : OutwardEntry :=
  ⟨11, "2025-03-10T00:00:00.000Z", some 1, "CH1", none, 5, 0, 3, 1, 2, none, "", "", "", "", "",
    .OPEN, false⟩

/-- Concrete idempotence scenario: one unsynced inward candidate against `oW8`. -/
def iW8 : InwardEntry :=
  ⟨21, "2025-03-11T00:00:00.000Z", some 11, some 1, none, 2, 0, 0, 0, 0, "", "", "", "", "",
    false⟩

/-- State with one unsynced vendor and the two candidates. -/
def stW8 : AppState := ⟨[⟨1, "V", "VC", false⟩], [], [], [], [oW8], [iW8]⟩

/-- A healthy remote world over an empty store. -/
def envW8 : RemoteEnv := ⟨emptyStore, true, noUpload, noFail⟩

/-- C8 witness: after a concrete successful first cycle (a vendor, an outward
entry and an inward entry all get appended), the second cycle leaves the
remote store unchanged and succeeds. -/
theorem c8_sync_idempotent_witness :
    (syncDataToSheets ⟨storeAfterSuccess envW8 stW8 "T1" 100, true, noUpload, noFail⟩
        (mergedStateOf envW8 stW8 "T1" 100) "T2" 300).finalStore
      = storeAfterSuccess envW8 stW8 "T1" 100
    ∧ (syncDataToSheets ⟨storeAfterSuccess envW8 stW8 "T1" 100, true, noUpload, noFail⟩
        (mergedStateOf envW8 stW8 "T1" 100) "T2" 300).success = true :=
  have h := c8_sync_idempotent envW8 stW8 "T1" "T2" 100 300 noUpload noFail
    (by with_unfolding_all decide) (by decide) (by decide) (by decide) (by decide)
    (by decide) (by decide) (by decide) (by decide)
    (by with_unfolding_all decide) (by with_unfolding_all decide)
    (by with_unfolding_all decide) (by with_unfolding_all decide)
  ⟨h.2.2.2.2.2.2.1, h.2.2.2.2.2.2.2.1⟩

end JW
